import Mathlib

/-!
A shallow embedding of `modules/core/src/compiler/view.js` (the view
instantiation and data-binding engine): `View`, `ProtoView`, the memento
dispatch machinery, and the binding-registration API.

Modelling conventions:
* JavaScript objects become Lean structures / inductives; in-place mutation
  becomes explicit state passing (functions return the updated value).
* External collaborators (DOM facade, element injectors, change-detection
  record ranges, viewports, shadow-DOM strategies) are modelled at their
  interface boundary, exactly as `view.js` observes them.
* Operations that would throw in JS (dereferencing `undefined`/`null`)
  return `Option`/`Except` `none`/`error` at the corresponding point.
* JS numbers that may go negative (e.g. `elementBinders.length - 1` on an
  empty list) are modelled as `Int`.
* Side effects on external objects (reflective setters, `DOM.setText`,
  `onChange` callbacks) are represented as an explicit trace of dispatch
  events carrying the same indices/names the source passes.
-/

/-- Runtime values flowing through bindings (JS values at the boundary). -/
inductive Val where
  | null
  | str (s : String)
  | int (n : Int)
  deriving DecidableEq, Repr

/-- `PropertyUpdate` from view.js: a {currentValue, previousValue} pair. -/
structure PropertyUpdate where
  currentValue : Val
  previousValue : Val
  deriving DecidableEq, Repr

/-- A bound expression (external `AST` from change_detection); opaque data. -/
structure AST where
  id : Nat
  deriving DecidableEq, Repr

/-- `MapWrapper.get` on an insertion-ordered association list. -/
def amGet {κ α : Type} [DecidableEq κ] (m : List (κ × α)) (k : κ) : Option α :=
  match m with
  | [] => none
  | (k', v) :: rest => if k' = k then some v else amGet rest k

/-- `MapWrapper.contains`. -/
def amContains {κ α : Type} [DecidableEq κ] (m : List (κ × α)) (k : κ) : Bool :=
  (amGet m k).isSome

/-- `MapWrapper.set`: replace in place if the key exists, else append. -/
def amSet {κ α : Type} [DecidableEq κ] (m : List (κ × α)) (k : κ) (v : α) :
    List (κ × α) :=
  match m with
  | [] => [(k, v)]
  | (k', v') :: rest => if k' = k then (k, v) :: rest else (k', v') :: amSet rest k v

/-- JS array indexing with a possibly negative index (negative gives undefined). -/
def listGetInt {α : Type} (l : List α) (i : Int) : Option α :=
  if 0 ≤ i then l.get? i.toNat else none

/-! ## DOM facade (external `facade/dom`), modelled as a pure tree -/

/-- The reserved marker class `NG_BINDING_CLASS = 'ng-binding'`. -/
def NG_BINDING_CLASS : String := "ng-binding"

/-- A DOM node.  For a `TemplateElement` (`isTemplate = true`) the
`children` field models the children of its `content` document fragment
(which are not descendants of the template element in the live tree). -/
inductive DomNode where
  | text (value : String)
  | element (tagName : String) (classes : List String) (isTemplate : Bool)
      (children : List DomNode)

/-- `DOM.hasClass`. -/
def DomNode.hasClass (n : DomNode) (c : String) : Bool :=
  match n with
  | .text _ => false
  | .element _ classes _ _ => classes.contains c

/-- `DOM.addClass` (classList semantics: no duplicate entries). -/
def DomNode.addClass (n : DomNode) (c : String) : DomNode :=
  match n with
  | .text v => .text v
  | .element t classes tmpl ch =>
      .element t (if classes.contains c then classes else classes ++ [c]) tmpl ch

/-- `element instanceof TemplateElement`. -/
def DomNode.isTemplateElement (n : DomNode) : Bool :=
  match n with
  | .text _ => false
  | .element _ _ tmpl _ => tmpl

/-- The node's child list (for a template element: the children of its
`content` fragment, i.e. `DOM.templateAwareRoot` followed by child walking). -/
def DomNode.childList (n : DomNode) : List DomNode :=
  match n with
  | .text _ => []
  | .element _ _ _ ch => ch

/-- `DOM.clone`: a deep structural copy.  On pure trees the copy is equal to
the original, so the clone is the identity value-wise. -/
def DomNode.clone (n : DomNode) : DomNode := n

mutual
/-- Elements with class `ng-binding` in the subtree rooted at `n`, `n`
included, in document (preorder) order.  Template elements' `content` is a
separate fragment and is not searched. -/
def collectBoundNode : DomNode → List DomNode
  | .text _ => []
  | .element t cls tmpl ch =>
      (if cls.contains NG_BINDING_CLASS then [DomNode.element t cls tmpl ch] else [])
        ++ (if tmpl then [] else collectBoundList ch)
/-- `collectBoundNode` over a forest, in order. -/
def collectBoundList : List DomNode → List DomNode
  | [] => []
  | n :: rest => collectBoundNode n ++ collectBoundList rest
end

/-- `DOM.querySelectorAll(content, '.ng-binding')` over a document fragment:
all matching elements among the fragment's nodes and their descendants. -/
def DomNode.querySelectorAllBound (fragmentChildren : List DomNode) : List DomNode :=
  collectBoundList fragmentChildren

/-- `DOM.getElementsByClassName(root, 'ng-binding')`: matching descendants of
`root`, the root itself excluded. -/
def DomNode.getElementsByClassNameBound (root : DomNode) : List DomNode :=
  collectBoundList root.childList

/-! ## Directives, injectors (external `element_injector`, `di`) -/

/-- A directive/component class (the `type` stored in metadata and in
proto-injector bindings).  `implementsOnChange` says whether instances are
`instanceof OnChange`. -/
structure DirectiveClass where
  name : String
  implementsOnChange : Bool
  deriving DecidableEq, Repr

/-- A live directive/component instance. -/
structure Directive where
  cls : DirectiveClass
  deriving DecidableEq, Repr

/-- The `@Component`/`@Directive` annotation, as read by `View.hydrate`. -/
structure DirectiveAnnotation where
  componentServices : Option (List String)
  deriving DecidableEq, Repr

/-- A shadow-DOM strategy (external); `emulated` strategies construct a
light-DOM projection object, native ones return null. -/
structure ShadowDomStrategy where
  emulated : Bool
  deriving DecidableEq, Repr

/-- `DirectiveMetadata` as consumed by view.js: the directive class, its
annotation and its shadow-DOM strategy. -/
structure DirectiveMetadata where
  type : DirectiveClass
  annotation : DirectiveAnnotation
  shadowDomStrategy : ShadowDomStrategy
  deriving DecidableEq, Repr

/-- The application injector (external `di`), tracked as a creation tree. -/
inductive Injector where
  | root
  | child (parent : Injector) (services : List String)
  deriving DecidableEq, Repr

/-- `appInjector.createChild(services)`. -/
def Injector.createChild (i : Injector) (services : List String) : Injector :=
  .child i services

/-- `ProtoElementInjector` as observed by view.js: a parent link, a stable
index, the directive classes bound at the element, and whether the first
binding is the element's component. -/
inductive ProtoElementInjector where
  | mk (parent : Option ProtoElementInjector) (index : Nat)
      (bindings : List DirectiveClass) (firstBindingIsComponent : Bool)

def ProtoElementInjector.parent : ProtoElementInjector → Option ProtoElementInjector
  | .mk p _ _ _ => p

def ProtoElementInjector.index : ProtoElementInjector → Nat
  | .mk _ i _ _ => i

def ProtoElementInjector.bindings : ProtoElementInjector → List DirectiveClass
  | .mk _ _ b _ => b

def ProtoElementInjector.firstBindingIsComponent : ProtoElementInjector → Bool
  | .mk _ _ _ f => f

/-- A live `ElementInjector`: holds the proto and the currently instantiated
directive instances (empty until `instantiateDirectives`).  The parent/host
links passed to `instantiate` are used internally by the external injector
and are not observed by view.js, so they are not stored here. -/
structure ElementInjector where
  proto : ProtoElementInjector
  directives : List Directive

/-- `protoElementInjector.instantiate(parent, host)`: a fresh live injector
with no directives yet. -/
def ProtoElementInjector.instantiate (pei : ProtoElementInjector)
    (_parent : Option ElementInjector) (_host : Option ElementInjector) :
    ElementInjector :=
  { proto := pei, directives := [] }

/-- `elementInjector.instantiateDirectives(appInjector, shadowDomAppInjector,
preBuiltObjects)`: populates the directive instances from the proto's
bindings (the injector arguments drive external DI resolution). -/
def ElementInjector.instantiateDirectives (ei : ElementInjector)
    (_appInjector : Injector) (_shadowDomAppInjector : Option Injector) :
    ElementInjector :=
  { ei with directives := ei.proto.bindings.map (fun c => { cls := c }) }

/-- `elementInjector.clearDirectives()`. -/
def ElementInjector.clearDirectives (ei : ElementInjector) : ElementInjector :=
  { ei with directives := [] }

/-- `elementInjector.getAtIndex(i)` (JS array indexing, possibly negative). -/
def ElementInjector.getAtIndex (ei : ElementInjector) (i : Int) : Option Directive :=
  listGetInt ei.directives i

/-- `elementInjector.getComponent()`: the component instance (the first
directive when the first binding is the component). -/
def ElementInjector.getComponent (ei : ElementInjector) : Option Directive :=
  if ei.proto.firstBindingIsComponent then ei.directives.head? else none

/-- `NgElement` (external `core/dom/element`): a wrapper over a DOM element. -/
structure NgElement where
  domElement : DomNode

/-- A light-DOM projection object (external shadow-DOM emulation), recorded
with the host element it was constructed for.  (The parent/child view
references the source also passes are back references into the views being
built and are not stored.) -/
structure LightDom where
  hostElement : DomNode

/-! ## Mementos and change records -/

/-- `ElementPropertyMemento`: remembers the dense bound-element index and the
setter to apply.  The `_setter` function itself is external reflection
generated from `_setterName`; its invocation appears in the dispatch trace
under the setter name. -/
structure ElementPropertyMemento where
  elementIndex : Int
  setterName : String
  deriving DecidableEq, Repr

/-- `DirectivePropertyMemento`: element-injector index, directive index, and
the setter to apply (see `ElementPropertyMemento` on `_setter`). -/
structure DirectivePropertyMemento where
  elementInjectorIndex : Int
  directiveIndex : Int
  setterName : String
  deriving DecidableEq, Repr

/-- `DirectivePropertyGroupMemento`: one shared object per interned
(elementInjectorIndex, directiveIndex) key. -/
structure DirectivePropertyGroupMemento where
  elementInjectorIndex : Int
  directiveIndex : Int
  deriving DecidableEq, Repr

/-- The per-record expression memento: view.js routes on `instanceof
DirectivePropertyMemento` / `instanceof ElementPropertyMemento`, and treats
anything else as a plain integer text-node index. -/
inductive Memento where
  | directiveProp (m : DirectivePropertyMemento)
  | elementProp (m : ElementPropertyMemento)
  | textNode (index : Nat)
  deriving DecidableEq, Repr

/-- The group memento passed to `onRecordChange`: a
`DirectivePropertyGroupMemento` for directive-property records, otherwise
whatever was registered as its own group (the element-property memento or
the text-node index). -/
inductive GroupRef where
  | directiveGroup (g : DirectivePropertyGroupMemento)
  | plain (m : Memento)
  deriving DecidableEq, Repr

/-- A changed `Record` handed over by the change-detection engine, as
observed by view.js: its expression memento and value pair. -/
structure Rec where
  memento : Memento
  currentValue : Val
  previousValue : Val
  deriving DecidableEq, Repr

/-- `record.expressionMemento()`. -/
def Rec.expressionMemento (r : Rec) : Memento := r.memento

/-- The `_setterName` property read by `_collectChanges`
(`record.expressionMemento()._setterName`); a plain integer memento has no
such property (JS `undefined`), modelled as `none`. -/
def Memento.setterNameField : Memento → Option String
  | .directiveProp m => some m.setterName
  | .elementProp m => some m.setterName
  | .textNode _ => none

/-- One observable dispatch effect of `View.onRecordChange`: a reflective
setter call on a directive, a setter call on a bound element, a
`DOM.setText`, or the aggregated `onChange` callback. -/
inductive DispatchEvent where
  | setDirectiveProp (elementInjectorIndex directiveIndex : Int)
      (setterName : String) (value : Val)
  | setElementProp (elementIndex : Int) (setterName : String) (value : Val)
  | setText (textNodeIndex : Nat) (value : Val)
  | notifyOnChange (elementInjectorIndex directiveIndex : Int)
      (changes : List (Option String × PropertyUpdate))
  deriving DecidableEq, Repr

/-- The process-wide `_groups` interning table (`MapWrapper` keyed by the
hand-computed integer id), threaded explicitly. -/
abbrev GroupsTable : Type := List (Int × DirectivePropertyGroupMemento)

/-- `DirectivePropertyGroupMemento.get(memento)`: look up or intern the
group memento under the composite integer key
`elementInjectorIndex * 100 + directiveIndex`. -/
def DirectivePropertyGroupMemento.get (memento : DirectivePropertyMemento)
    (groups : GroupsTable) : DirectivePropertyGroupMemento × GroupsTable :=
  let elementInjectorIndex := memento.elementInjectorIndex
  let directiveIndex := memento.directiveIndex
  let id := elementInjectorIndex * 100 + directiveIndex
  match amGet groups id with
  | some g => (g, groups)
  | none =>
      let g : DirectivePropertyGroupMemento :=
        { elementInjectorIndex := elementInjectorIndex, directiveIndex := directiveIndex }
      (g, amSet groups id g)

/-- `groupMemento.directive(elementInjectors)`: resolve the directive
instance by stored indices (failure = the JS crash on a missing injector or
directive). -/
def DirectivePropertyGroupMemento.directive (g : DirectivePropertyGroupMemento)
    (elementInjectors : List (Option ElementInjector)) : Option Directive := do
  let ei ← (listGetInt elementInjectors g.elementInjectorIndex).join
  ei.getAtIndex g.directiveIndex

/-! ## Contexts (external `ContextWithVariableBindings`) -/

/-- A data-binding context: either a plain context object or a
`ContextWithVariableBindings` wrapping a parent context with a
local-variable map. -/
inductive Ctx where
  | plain (value : Val)
  | component (d : Directive)
  | withLocals (parent : Option Ctx) (varBindings : List (String × Val))

/-- `contextWithLocals.set(name, value)` (only a
`ContextWithVariableBindings` has `set`; calling it on a plain context is
the JS type error, modelled as `none`). -/
def Ctx.set (c : Ctx) (name : String) (value : Val) : Option Ctx :=
  match c with
  | .withLocals parent varBindings => some (.withLocals parent (amSet varBindings name value))
  | _ => none

/-- `contextWithLocals.clearValues()`: reset every local to null. -/
def Ctx.clearValues (c : Ctx) : Ctx :=
  match c with
  | .withLocals parent varBindings =>
      .withLocals parent (varBindings.map (fun kv => (kv.1, Val.null)))
  | c => c

/-- Re-point `contextWithLocals.parent` at a new parent context. -/
def Ctx.setParent (c : Ctx) (newParent : Ctx) : Ctx :=
  match c with
  | .withLocals _ varBindings => .withLocals (some newParent) varBindings
  | c => c

/-! ## Record ranges (external `change_detection`), at their interface -/

/-- One registration made through
`protoRecordRange.addRecordsFromAST(expression, expMemento, groupMemento,
isContentWatch)`. -/
structure ProtoRecord where
  expression : AST
  expMemento : Memento
  groupMemento : GroupRef
  isContentWatch : Bool
  deriving DecidableEq, Repr

/-- `ProtoRecordRange`: the template of watch registrations. -/
structure ProtoRecordRange where
  records : List ProtoRecord
  deriving DecidableEq, Repr

/-- `new ProtoRecordRange()`. -/
def ProtoRecordRange.new : ProtoRecordRange := { records := [] }

/-- `protoRecordRange.addRecordsFromAST(expression, expMemento,
groupMemento, isContentWatch = false)`. -/
def ProtoRecordRange.addRecordsFromAST (prr : ProtoRecordRange) (expression : AST)
    (expMemento : Memento) (groupMemento : GroupRef)
    (isContentWatch : Bool := false) : ProtoRecordRange :=
  { records := prr.records ++
      [{ expression := expression, expMemento := expMemento,
         groupMemento := groupMemento, isContentWatch := isContentWatch }] }

/-- A live `RecordRange`: its proto, the context it watches, and the child
ranges merged in through `addRange`. -/
inductive RecordRange where
  | mk (proto : ProtoRecordRange) (context : Option Ctx) (children : List RecordRange)

def RecordRange.proto : RecordRange → ProtoRecordRange
  | .mk p _ _ => p

def RecordRange.context : RecordRange → Option Ctx
  | .mk _ c _ => c

def RecordRange.children : RecordRange → List RecordRange
  | .mk _ _ ch => ch

/-- `protoRecordRange.instantiate(dispatcher, formatters)`: a fresh live
range over no context.  (The dispatcher is the view itself — a back
reference — and the formatter map is empty `NO_FORMATTERS`.) -/
def ProtoRecordRange.instantiate (prr : ProtoRecordRange) : RecordRange :=
  .mk prr none []

/-- `recordRange.setContext(context)`. -/
def RecordRange.setContext (rr : RecordRange) (ctx : Option Ctx) : RecordRange :=
  .mk rr.proto ctx rr.children

/-- `recordRange.addRange(childRange)`. -/
def RecordRange.addRange (rr : RecordRange) (child : RecordRange) : RecordRange :=
  .mk rr.proto rr.context (rr.children ++ [child])

/-! ## ProtoView and ElementBinder (mutually recursive through
`nestedProtoView`) -/

mutual
/-- `ProtoView`: the compile-time template descriptor (field order follows
the source class). -/
inductive ProtoView where
  | mk (element : Option DomNode)
      (elementBinders : List ElementBinder)
      (protoRecordRange : ProtoRecordRange)
      (variableBindings : List (String × String))
      (protoContextLocals : List (String × Val))
      (textNodesWithBindingCount : Nat)
      (elementsWithBindingCount : Nat)
      (instantiateInPlace : Bool)
      (rootBindingOffset : Nat)
      (isTemplateElement : Bool)
/-- `ElementBinder` (external `element_binder`, consumed as data): the
per-element static binding metadata view.js reads and writes. -/
inductive ElementBinder where
  | mk (protoElementInjector : Option ProtoElementInjector)
      (componentDirective : Option DirectiveMetadata)
      (templateDirective : Option DirectiveMetadata)
      (nestedProtoView : Option ProtoView)
      (textNodeIndices : Option (List Nat))
      (hasElementPropertyBindings : Bool)
      (events : Option (List (String × AST)))
end

def ProtoView.element : ProtoView → Option DomNode
  | .mk e _ _ _ _ _ _ _ _ _ => e

def ProtoView.elementBinders : ProtoView → List ElementBinder
  | .mk _ b _ _ _ _ _ _ _ _ => b

def ProtoView.protoRecordRange : ProtoView → ProtoRecordRange
  | .mk _ _ p _ _ _ _ _ _ _ => p

def ProtoView.variableBindings : ProtoView → List (String × String)
  | .mk _ _ _ v _ _ _ _ _ _ => v

def ProtoView.protoContextLocals : ProtoView → List (String × Val)
  | .mk _ _ _ _ l _ _ _ _ _ => l

def ProtoView.textNodesWithBindingCount : ProtoView → Nat
  | .mk _ _ _ _ _ t _ _ _ _ => t

def ProtoView.elementsWithBindingCount : ProtoView → Nat
  | .mk _ _ _ _ _ _ c _ _ _ => c

def ProtoView.instantiateInPlace : ProtoView → Bool
  | .mk _ _ _ _ _ _ _ i _ _ => i

def ProtoView.rootBindingOffset : ProtoView → Nat
  | .mk _ _ _ _ _ _ _ _ r _ => r

def ProtoView.isTemplateElement : ProtoView → Bool
  | .mk _ _ _ _ _ _ _ _ _ t => t

def ElementBinder.protoElementInjector : ElementBinder → Option ProtoElementInjector
  | .mk p _ _ _ _ _ _ => p

def ElementBinder.componentDirective : ElementBinder → Option DirectiveMetadata
  | .mk _ c _ _ _ _ _ => c

def ElementBinder.templateDirective : ElementBinder → Option DirectiveMetadata
  | .mk _ _ t _ _ _ _ => t

def ElementBinder.nestedProtoView : ElementBinder → Option ProtoView
  | .mk _ _ _ n _ _ _ => n

def ElementBinder.textNodeIndices : ElementBinder → Option (List Nat)
  | .mk _ _ _ _ t _ _ => t

def ElementBinder.hasElementPropertyBindings : ElementBinder → Bool
  | .mk _ _ _ _ _ h _ => h

def ElementBinder.events : ElementBinder → Option (List (String × AST))
  | .mk _ _ _ _ _ _ e => e

/-- `new ElementBinder(protoElementInjector, componentDirective,
templateDirective)`: the remaining fields start unset. -/
def ElementBinder.new (protoElementInjector : Option ProtoElementInjector)
    (componentDirective : Option DirectiveMetadata)
    (templateDirective : Option DirectiveMetadata) : ElementBinder :=
  .mk protoElementInjector componentDirective templateDirective none none false none

/-- `new ProtoView(template, protoRecordRange)`: `rootBindingOffset` is 1
iff the template element is present and already carries the `ng-binding`
marker class. -/
def ProtoView.new (template : Option DomNode) (protoRecordRange : ProtoRecordRange) :
    ProtoView :=
  .mk template [] protoRecordRange [] [] 0 0 false
    (match template with
     | some el => if el.hasClass NG_BINDING_CLASS then 1 else 0
     | none => 0)
    (match template with
     | some el => el.isTemplateElement
     | none => false)

/-- Replace the binder list (mutations of `this.elementBinders`). -/
def ProtoView.withBinders (pv : ProtoView) (binders : List ElementBinder) : ProtoView :=
  match pv with
  | .mk e _ p v l t c i r tm => .mk e binders p v l t c i r tm

/-- Replace the proto record range. -/
def ProtoView.withProtoRecordRange (pv : ProtoView) (prr : ProtoRecordRange) : ProtoView :=
  match pv with
  | .mk e b _ v l t c i r tm => .mk e b prr v l t c i r tm

/-- `this.instantiateInPlace = true` (and similar assignments). -/
def ProtoView.withInstantiateInPlace (pv : ProtoView) (flag : Bool) : ProtoView :=
  match pv with
  | .mk e b p v l t c _ r tm => .mk e b p v l t c flag r tm

/-- Set `textNodesWithBindingCount`. -/
def ProtoView.withTextNodesWithBindingCount (pv : ProtoView) (n : Nat) : ProtoView :=
  match pv with
  | .mk e b p v l _ c i r tm => .mk e b p v l n c i r tm

/-- Set `elementsWithBindingCount`. -/
def ProtoView.withElementsWithBindingCount (pv : ProtoView) (n : Nat) : ProtoView :=
  match pv with
  | .mk e b p v l t _ i r tm => .mk e b p v l t n i r tm

/-- Set `variableBindings` and `protoContextLocals` (for `bindVariable`). -/
def ProtoView.withVariableMaps (pv : ProtoView) (vb : List (String × String))
    (pcl : List (String × Val)) : ProtoView :=
  match pv with
  | .mk e b p _ _ t c i r tm => .mk e b p vb pcl t c i r tm

/-- Set a binder's `textNodeIndices`. -/
def ElementBinder.withTextNodeIndices (b : ElementBinder) (t : Option (List Nat)) :
    ElementBinder :=
  match b with
  | .mk p c td n _ h e => .mk p c td n t h e

/-- Set a binder's `hasElementPropertyBindings`. -/
def ElementBinder.withHasElementPropertyBindings (b : ElementBinder) (h' : Bool) :
    ElementBinder :=
  match b with
  | .mk p c td n t _ e => .mk p c td n t h' e

/-- Set a binder's `events` map. -/
def ElementBinder.withEvents (b : ElementBinder) (e' : Option (List (String × AST))) :
    ElementBinder :=
  match b with
  | .mk p c td n t h _ => .mk p c td n t h e'

/-- Set a binder's `componentDirective` (mutated by `createRootProtoView`). -/
def ElementBinder.withComponentDirective (b : ElementBinder)
    (c' : Option DirectiveMetadata) : ElementBinder :=
  match b with
  | .mk p _ td n t h e => .mk p c' td n t h e

/-- Set a binder's `nestedProtoView` (mutated by the compiler and by
`createRootProtoView`). -/
def ElementBinder.withNestedProtoView (b : ElementBinder) (n' : Option ProtoView) :
    ElementBinder :=
  match b with
  | .mk p c td _ t h e => .mk p c td n' t h e

/-- `this.elementBinders[this.elementBinders.length-1]`: the most recently
added binder (`none` on an empty list — the JS `undefined`). -/
def ProtoView.lastBinder (pv : ProtoView) : Option ElementBinder :=
  pv.elementBinders.getLast?

/-- Mutate the most recently added binder in place. -/
def ProtoView.updateLastBinder (pv : ProtoView) (f : ElementBinder → ElementBinder) :
    ProtoView :=
  pv.withBinders (pv.elementBinders.set (pv.elementBinders.length - 1)
    (match pv.elementBinders.getLast? with
     | some b => f b
     | none => ElementBinder.new none none none))

/-- `bindVariable(contextName, templateName)`. -/
def ProtoView.bindVariable (pv : ProtoView) (contextName templateName : String) :
    ProtoView :=
  pv.withVariableMaps (amSet pv.variableBindings contextName templateName)
    (amSet pv.protoContextLocals templateName Val.null)

/-- `bindElement(protoElementInjector, componentDirective = null,
templateDirective = null)`: appends a fresh binder and returns it (the
source returns the binder object for further mutation; here the updated
ProtoView is returned alongside). -/
def ProtoView.bindElement (pv : ProtoView)
    (protoElementInjector : Option ProtoElementInjector)
    (componentDirective : Option DirectiveMetadata := none)
    (templateDirective : Option DirectiveMetadata := none) :
    ProtoView × ElementBinder :=
  let elBinder := ElementBinder.new protoElementInjector componentDirective templateDirective
  (pv.withBinders (pv.elementBinders ++ [elBinder]), elBinder)

/-- `bindTextNode(indexInParent, expression)`: attaches to the most recent
binder (JS crash when no binder exists: `undefined.textNodeIndices`),
allocates the next shared text-node memento and registers the expression
with it as both expression memento and group memento. -/
def ProtoView.bindTextNode (pv : ProtoView) (indexInParent : Nat) (expression : AST) :
    Option ProtoView :=
  match pv.lastBinder with
  | none => none
  | some elBinder =>
      let indices := match elBinder.textNodeIndices with
        | none => []
        | some l => l
      let pv := pv.updateLastBinder
        (fun b => b.withTextNodeIndices (some (indices ++ [indexInParent])))
      let memento := pv.textNodesWithBindingCount
      let pv := pv.withTextNodesWithBindingCount (memento + 1)
      some (pv.withProtoRecordRange
        (pv.protoRecordRange.addRecordsFromAST expression (.textNode memento)
          (.plain (.textNode memento))))

/-- `bindElementProperty(expression, setterName, setter)`: attaches to the
most recent binder (JS crash when none exists), lazily marks the binder and
allocates the next dense element-binding slot on first use. -/
def ProtoView.bindElementProperty (pv : ProtoView) (expression : AST)
    (setterName : String) : Option ProtoView :=
  match pv.lastBinder with
  | none => none
  | some elBinder =>
      let pv :=
        if !elBinder.hasElementPropertyBindings then
          (pv.updateLastBinder (fun b => b.withHasElementPropertyBindings true)
            ).withElementsWithBindingCount (pv.elementsWithBindingCount + 1)
        else pv
      let memento : ElementPropertyMemento :=
        { elementIndex := (pv.elementsWithBindingCount : Int) - 1,
          setterName := setterName }
      some (pv.withProtoRecordRange
        (pv.protoRecordRange.addRecordsFromAST expression (.elementProp memento)
          (.plain (.elementProp memento))))

/-- `bindEvent(eventName, expression)`: attaches to the most recent binder
(JS crash when none exists); events are kept in a name-keyed map. -/
def ProtoView.bindEvent (pv : ProtoView) (eventName : String) (expression : AST) :
    Option ProtoView :=
  match pv.lastBinder with
  | none => none
  | some elBinder =>
      let eventsMap := match elBinder.events with
        | none => []
        | some m => m
      some (pv.updateLastBinder
        (fun b => b.withEvents (some (amSet eventsMap eventName expression))))

/-- `bindDirectiveProperty(directiveIndex, expression, setterName, setter,
isContentWatch)`: builds the per-property memento keyed to the current
binder index (note: `elementBinders.length - 1`, which is `-1` on an empty
binder list — no binder is dereferenced), interns the group memento, and
registers the expression with both. -/
def ProtoView.bindDirectiveProperty (pv : ProtoView) (directiveIndex : Int)
    (expression : AST) (setterName : String) (isContentWatch : Bool)
    (groups : GroupsTable) : ProtoView × GroupsTable :=
  let expMemento : DirectivePropertyMemento :=
    { elementInjectorIndex := (pv.elementBinders.length : Int) - 1,
      directiveIndex := directiveIndex,
      setterName := setterName }
  let (groupMemento, groups) := DirectivePropertyGroupMemento.get expMemento groups
  (pv.withProtoRecordRange
    (pv.protoRecordRange.addRecordsFromAST expression (.directiveProp expMemento)
      (.directiveGroup groupMemento) isContentWatch),
   groups)

/-- `ProtoView.createRootProtoView(protoView, insertionElement,
rootComponentAnnotatedType)`: marks the insertion element as bound, builds a
synthetic in-place ProtoView with a single binder wrapping the root
component.  The source mutates the binder returned by `bindElement`; here
the same mutation is applied to the stored binder. -/
def ProtoView.createRootProtoView (protoView : ProtoView)
    (insertionElement : DomNode)
    (rootComponentAnnotatedType : DirectiveMetadata) : ProtoView :=
  let insertionElement := insertionElement.addClass "ng-binding"
  let rootProtoView := ProtoView.new (some insertionElement) ProtoRecordRange.new
  let rootProtoView := rootProtoView.withInstantiateInPlace true
  let (rootProtoView, _binder) := rootProtoView.bindElement
    (some (.mk none 0 [rootComponentAnnotatedType.type] true))
  rootProtoView.updateLastBinder (fun b =>
    (b.withComponentDirective (some rootComponentAnnotatedType)
      ).withNestedProtoView (some protoView))

/-! ## ViewPort, PreBuiltObjects, View -/

/-- `ViewPort` (external), as constructed and driven by view.js:
`new ViewPort(parentView, element, nestedProtoView, elementInjector,
destLightDom)` plus the hydrate/dehydrate hooks.  The parent-view argument
is a back reference into the view under construction and is not stored. -/
structure ViewPort where
  element : DomNode
  nestedProtoView : Option ProtoView
  elementInjector : Option ElementInjector
  destLightDom : Option LightDom
  hydrated : Bool

/-- `viewPort.hydrate(appInjector, hostElementInjector)`. -/
def ViewPort.hydrate (vp : ViewPort) (_appInjector : Injector)
    (_hostElementInjector : Option ElementInjector) : ViewPort :=
  { vp with hydrated := true }

/-- `viewPort.dehydrate()`. -/
def ViewPort.dehydrate (vp : ViewPort) : ViewPort :=
  { vp with hydrated := false }

/-- `PreBuiltObjects` (external): the per-element bundle view.js assembles
(`new PreBuiltObjects(view, new NgElement(element), viewPort, lightDom)`).
The view argument is a back reference and is not stored. -/
structure PreBuiltObjects where
  ngElement : NgElement
  viewPort : Option ViewPort
  lightDom : Option LightDom

/-- `View`: the runtime instance.  Fields assigned `null` in the constructor
and filled in by `init` are `Option`s.  `componentChildViews` makes the type
recursive. -/
inductive View where
  | mk (proto : ProtoView)
      (nodes : List DomNode)
      (recordRange : RecordRange)
      (elementInjectors : Option (List (Option ElementInjector)))
      (rootElementInjectors : Option (List ElementInjector))
      (textNodes : Option (List DomNode))
      (bindElements : Option (List DomNode))
      (componentChildViews : Option (List View))
      (viewPorts : Option (List ViewPort))
      (preBuiltObjects : Option (List (Option PreBuiltObjects)))
      (context : Option Ctx)
      (contextWithLocals : Option Ctx)

def View.proto : View → ProtoView
  | .mk p _ _ _ _ _ _ _ _ _ _ _ => p

def View.nodes : View → List DomNode
  | .mk _ n _ _ _ _ _ _ _ _ _ _ => n

def View.recordRange : View → RecordRange
  | .mk _ _ r _ _ _ _ _ _ _ _ _ => r

def View.elementInjectors : View → Option (List (Option ElementInjector))
  | .mk _ _ _ e _ _ _ _ _ _ _ _ => e

def View.rootElementInjectors : View → Option (List ElementInjector)
  | .mk _ _ _ _ r _ _ _ _ _ _ _ => r

def View.textNodes : View → Option (List DomNode)
  | .mk _ _ _ _ _ t _ _ _ _ _ _ => t

def View.bindElements : View → Option (List DomNode)
  | .mk _ _ _ _ _ _ b _ _ _ _ _ => b

def View.componentChildViews : View → Option (List View)
  | .mk _ _ _ _ _ _ _ c _ _ _ _ => c

def View.viewPorts : View → Option (List ViewPort)
  | .mk _ _ _ _ _ _ _ _ v _ _ _ => v

def View.preBuiltObjects : View → Option (List (Option PreBuiltObjects))
  | .mk _ _ _ _ _ _ _ _ _ p _ _ => p

def View.context : View → Option Ctx
  | .mk _ _ _ _ _ _ _ _ _ _ c _ => c

def View.contextWithLocals : View → Option Ctx
  | .mk _ _ _ _ _ _ _ _ _ _ _ c => c

/-- `new View(proto, nodes, protoRecordRange, protoContextLocals)`:
instantiates the record range, nulls the init-filled fields, and prepares a
`ContextWithVariableBindings` when the proto declares context locals. -/
def View.new (proto : ProtoView) (nodes : List DomNode)
    (protoRecordRange : ProtoRecordRange) (protoContextLocals : List (String × Val)) :
    View :=
  .mk proto nodes protoRecordRange.instantiate none none none none none none none none
    (if protoContextLocals.length > 0
     then some (.withLocals none protoContextLocals)
     else none)

/-- `view.init(elementInjectors, rootElementInjectors, textNodes,
bindElements, viewPorts, preBuiltObjects, componentChildViews)`. -/
def View.init (v : View) (elementInjectors : List (Option ElementInjector))
    (rootElementInjectors : List ElementInjector) (textNodes : List DomNode)
    (bindElements : List DomNode) (viewPorts : List ViewPort)
    (preBuiltObjects : List (Option PreBuiltObjects))
    (componentChildViews : List View) : View :=
  match v with
  | .mk p n r _ _ _ _ _ _ _ c cwl =>
      .mk p n r (some elementInjectors) (some rootElementInjectors) (some textNodes)
        (some bindElements) (some componentChildViews) (some viewPorts)
        (some preBuiltObjects) c cwl

/-- `view.hydrated()`: true exactly when the context is present. -/
def View.hydrated (v : View) : Bool := v.context.isSome

/-- The errors view.js raises (`BaseException`s), plus `missingStructure`
for the implicit JS crashes on absent objects. -/
inductive ViewError where
  | alreadyHydrated
  | cannotSetLocalsOnDehydratedView
  | localBindingNotDefined (name : String)
  | contextNotSettable
  | missingStructure
  deriving DecidableEq, Repr

/-- `setLocal(contextName, value)`: invalid-state error when dehydrated,
lookup error when the name is not a declared variable binding, otherwise a
write through `context.set` to the template-named slot.  In the source
`context` and `contextWithLocals` alias one object, so the write updates
both fields here. -/
def View.setLocal (v : View) (contextName : String) (value : Val) :
    Except ViewError View :=
  if !v.hydrated then .error .cannotSetLocalsOnDehydratedView
  else if !(amContains v.proto.variableBindings contextName) then
    .error (.localBindingNotDefined contextName)
  else
    match amGet v.proto.variableBindings contextName with
    | none => .error (.localBindingNotDefined contextName)
    | some templateName =>
        match v.context with
        | none => .error .cannotSetLocalsOnDehydratedView
        | some ctx =>
            match ctx.set templateName value with
            | none => .error .contextNotSettable
            | some ctx' =>
                match v with
                | .mk p n r e ri t b c vp pb _ cwl =>
                    .ok (.mk p n r e ri t b c vp pb (some ctx')
                      (cwl.map (fun _ => ctx')))

/-- `_hydrateContext(newContext)`: merge with the local-variable scope when
present, then re-point the record range at the resulting context. -/
def View.hydrateContextStep (v : View) (newContext : Ctx) : View :=
  match v with
  | .mk p n r e ri t b c vp pb _ cwl =>
      let ctx := match cwl with
        | some locals => locals.setParent newContext
        | none => newContext
      .mk p n (r.setContext (some ctx)) e ri t b c vp pb (some ctx)
        (cwl.map (fun _ => ctx))

/-- `_dehydrateContext()`: clear the local values (the record range keeps
its stale context — the source does not call `setContext` here). -/
def View.dehydrateContextStep (v : View) : View :=
  match v with
  | .mk p n r e ri t b c vp pb _ cwl =>
      .mk p n r e ri t b c vp pb none (cwl.map Ctx.clearValues)

/-! ## View — change dispatch (`onRecordChange` and helpers) -/

/-- `directiveMemento.invoke(record, elementInjectors)`: resolve the element
injector and directive by stored indices and call the setter with the new
value (failure = the JS crash on a missing injector/directive). -/
def DirectivePropertyMemento.invoke (m : DirectivePropertyMemento) (record : Rec)
    (elementInjectors : List (Option ElementInjector)) : Option DispatchEvent := do
  let elementInjector ← (listGetInt elementInjectors m.elementInjectorIndex).join
  let _directive ← elementInjector.getAtIndex m.directiveIndex
  pure (.setDirectiveProp m.elementInjectorIndex m.directiveIndex m.setterName
    record.currentValue)

/-- `elementMemento.invoke(record, bindElements)`: resolve the DOM element
by the dense index and call the setter with the new value. -/
def ElementPropertyMemento.invoke (m : ElementPropertyMemento) (record : Rec)
    (bindElements : List DomNode) : Option DispatchEvent := do
  let _element ← listGetInt bindElements m.elementIndex
  pure (.setElementProp m.elementIndex m.setterName record.currentValue)

/-- `_invokeMementoFor(record)`: dispatch on the memento kind — directive
property, element property, else a plain text-node index written through
`DOM.setText`. -/
def View.invokeMementoFor (v : View) (record : Rec) : Option DispatchEvent :=
  match record.expressionMemento with
  | .directiveProp directiveMemento => do
      let elementInjectors ← v.elementInjectors
      directiveMemento.invoke record elementInjectors
  | .elementProp elementMemento => do
      let bindElements ← v.bindElements
      elementMemento.invoke record bindElements
  | .textNode textNodeIndex => do
      let textNodes ← v.textNodes
      let _node ← textNodes.get? textNodeIndex
      pure (.setText textNodeIndex record.currentValue)

/-- `_invokeMementoForRecords(records)`: invoke each record's memento in
order (the source's indexed for loop, as list recursion). -/
def View.invokeMementoForRecords (v : View) : List Rec → Option (List DispatchEvent)
  | [] => some []
  | record :: rest => do
      let ev ← v.invokeMementoFor record
      let evs ← v.invokeMementoForRecords rest
      pure (ev :: evs)

/-- `_collectChanges(records)`: a `StringMapWrapper` from each record's
memento `_setterName` to its {currentValue, previousValue} pair (later
records with the same setter name overwrite earlier ones). -/
def View.collectChanges (records : List Rec) :
    List (Option String × PropertyUpdate) :=
  records.foldl
    (fun changes record =>
      amSet changes record.expressionMemento.setterNameField
        { currentValue := record.currentValue, previousValue := record.previousValue })
    []

/-- `_notifyDirectiveAboutChanges(groupMemento, records)`: resolve the
group's directive; when it implements `OnChange`, one aggregated `onChange`
call with the collected changes, otherwise nothing. -/
def View.notifyDirectiveAboutChanges (v : View) (g : DirectivePropertyGroupMemento)
    (records : List Rec) : Option (List DispatchEvent) := do
  let elementInjectors ← v.elementInjectors
  let dir ← g.directive elementInjectors
  if dir.cls.implementsOnChange then
    pure [.notifyOnChange g.elementInjectorIndex g.directiveIndex
      (View.collectChanges records)]
  else
    pure []

/-- `onRecordChange(groupMemento, records)`: apply every record's memento,
then, when the group memento denotes a directive-property group, notify the
directive once.  The result is the trace of external effects in order. -/
def View.onRecordChange (v : View) (groupMemento : GroupRef) (records : List Rec) :
    Option (List DispatchEvent) := do
  let applied ← v.invokeMementoForRecords records
  match groupMemento with
  | .directiveGroup g => do
      let notifications ← v.notifyDirectiveAboutChanges g records
      pure (applied ++ notifications)
  | .plain _ => pure applied

/-! ## ProtoView.instantiate — view construction -/

/-- Step 4 of instantiation (source lines 315–320): index 0 maps to the root
clone iff `rootBindingOffset == 1`, otherwise to the
`(i - rootBindingOffset)`-th bound element of the descendant query. -/
def resolveBinderElement (rootElementClone : DomNode) (rootBindingOffset : Nat)
    (elementsWithBindings : List DomNode) (i : Nat) : Option DomNode :=
  if i == 0 && rootBindingOffset == 1 then some rootElementClone
  else listGetInt elementsWithBindings ((i : Int) - (rootBindingOffset : Int))

/-- The text-node walk of source lines 343–349: the sibling pointer starts
at the element's (template-aware) first child and only ever advances, so
index `textNodeIndices[j]` resolves to child `max k index` where `k` is the
position reached so far.  Walking past the end of the child list is the JS
null dereference, modelled as `none`. -/
def resolveTextNodesGo (children : List DomNode) (k : Nat) :
    List Nat → Option (List DomNode)
  | [] => some []
  | index :: rest =>
      let k' := max k index
      match children.get? k' with
      | none => none
      | some childNode => (resolveTextNodesGo children k' rest).map (childNode :: ·)

/-- Resolve a binder's bound text nodes from its stored relative indices. -/
def resolveTextNodes (children : List DomNode) (textNodeIndices : List Nat) :
    Option (List DomNode) :=
  resolveTextNodesGo children 0 textNodeIndices

/-- `_parentElementLightDom(protoElementInjector, preBuiltObjects)`: the
nearest ancestor light DOM, null-safe when there is no parent; a missing
pre-built bundle at the parent index is the JS crash (`none`). -/
def parentElementLightDom (protoElementInjector : ProtoElementInjector)
    (preBuiltObjects : List (Option PreBuiltObjects)) : Option (Option LightDom) :=
  match protoElementInjector.parent with
  | none => some none
  | some p =>
      match preBuiltObjects.get? p.index with
      | some (some pbo) => some pbo.lightDom
      | _ => none

/-- The accumulating state of the binder loop in `instantiate` (the local
arrays of source lines 305–311, plus the record-range merges and event
registrations the loop performs on external objects). -/
structure InstState where
  elementInjectors : List (Option ElementInjector)
  rootElementInjectors : List ElementInjector
  textNodes : List DomNode
  elementsWithPropertyBindings : List DomNode
  preBuiltObjects : List (Option PreBuiltObjects)
  viewPorts : List ViewPort
  componentChildViews : List View
  childRecordRanges : List RecordRange
  attachedEvents : List (DomNode × String × AST)

/-- The empty loop state. -/
def InstState.initial : InstState :=
  { elementInjectors := [], rootElementInjectors := [], textNodes := [],
    elementsWithPropertyBindings := [], preBuiltObjects := [], viewPorts := [],
    componentChildViews := [], childRecordRanges := [], attachedEvents := [] }

/-- The tail of one binder iteration: viewport construction (source lines
364–370), the pre-built bundle (372–375) and event listener registration
(377–391).  `st` already carries this binder's injector, property-element
and text-node updates. -/
def finishBinder (b : ElementBinder) (element : DomNode)
    (elementInjector : Option ElementInjector) (lightDom : Option LightDom)
    (st : InstState) : Option InstState :=
  let viewPortResult : Option (Option ViewPort) :=
    match b.templateDirective with
    | none => some none
    | some _ =>
        match b.protoElementInjector with
        | none => none
        | some protoElementInjector =>
            match parentElementLightDom protoElementInjector st.preBuiltObjects with
            | none => none
            | some destLightDom =>
                some (some { element := element, nestedProtoView := b.nestedProtoView,
                             elementInjector := elementInjector,
                             destLightDom := destLightDom, hydrated := false })
  match viewPortResult with
  | none => none
  | some viewPort =>
      let st := { st with viewPorts := st.viewPorts ++ viewPort.toList }
      let preBuiltEntry : Option PreBuiltObjects :=
        match elementInjector with
        | some _ => some { ngElement := { domElement := element },
                           viewPort := viewPort, lightDom := lightDom }
        | none => none
      let st := { st with preBuiltObjects := st.preBuiltObjects ++ [preBuiltEntry] }
      let newEvents := match b.events with
        | none => []
        | some eventsMap => eventsMap.map (fun kv => (element, kv.1, kv.2))
      some { st with attachedEvents := st.attachedEvents ++ newEvents }

/-- `sizeOf` of a ProtoView dominates its binder list. -/
theorem ProtoView.sizeOf_elementBinders_lt (pv : ProtoView) :
    sizeOf pv.elementBinders < sizeOf pv := by
  cases pv with
  | mk e b p v l t c i r tm => simp [ProtoView.elementBinders]; omega

/-- `sizeOf` of a binder dominates a present nested ProtoView. -/
theorem ElementBinder.sizeOf_nestedProtoView_lt {b : ElementBinder} {npv : ProtoView}
    (h : b.nestedProtoView = some npv) : sizeOf npv < sizeOf b := by
  cases b with
  | mk p c td n t hh e =>
      simp [ElementBinder.nestedProtoView] at h
      subst h
      simp
      omega

/-- Source line 277: reuse the template element in place, else clone it. -/
def rootElementCloneFor (instantiateInPlace : Bool) (templateElement : DomNode) :
    DomNode :=
  if instantiateInPlace then templateElement else templateElement.clone

/-- Source lines 279–283: the bound-descendant query — inside the content
fragment for a template element, over the live subtree otherwise. -/
def elementsWithBindingsFor (isTemplateElement : Bool) (rootElementClone : DomNode) :
    List DomNode :=
  if isTemplateElement then DomNode.querySelectorAllBound rootElementClone.childList
  else rootElementClone.getElementsByClassNameBound

/-- Source lines 290–301: the view's root-level node list. -/
def viewNodesFor (isTemplateElement : Bool) (rootElementClone : DomNode) :
    List DomNode :=
  if isTemplateElement then rootElementClone.childList else [rootElementClone]

mutual
/-- `ProtoView.instantiate(hostElementInjector)` (source lines 276–398):
clone (or reuse) the template root, query the bound descendants, build the
node list, run the binder loop, and assemble the View via `init`.  `none`
models the JS crashes on malformed proto structures (e.g. a missing
template element, an unresolvable binder element, or a component binder
without a nested ProtoView). -/
def ProtoView.instantiate (pv : ProtoView) (hostElementInjector : Option ElementInjector) :
    Option View :=
  match pv.element with
  | none => none
  | some templateElement =>
      let rootElementClone := rootElementCloneFor pv.instantiateInPlace templateElement
      let elementsWithBindings :=
        elementsWithBindingsFor pv.isTemplateElement rootElementClone
      let viewNodes := viewNodesFor pv.isTemplateElement rootElementClone
      let view := View.new pv viewNodes pv.protoRecordRange pv.protoContextLocals
      match instantiateLoop hostElementInjector rootElementClone pv.rootBindingOffset
          elementsWithBindings 0 pv.elementBinders InstState.initial with
      | none => none
      | some st =>
          let view := match view with
            | .mk p n r e ri t bl c vp pb ctx cwl =>
                View.mk p n (st.childRecordRanges.foldl RecordRange.addRange r)
                  e ri t bl c vp pb ctx cwl
          some (view.init st.elementInjectors st.rootElementInjectors st.textNodes
            st.elementsWithPropertyBindings st.viewPorts st.preBuiltObjects
            st.componentChildViews)
termination_by sizeOf pv
decreasing_by
  simp_wf
  exact ProtoView.sizeOf_elementBinders_lt pv

/-- The binder loop of `instantiate` (source lines 313–392), one recursive
step per binder, threading the accumulated state. -/
def instantiateLoop (hostElementInjector : Option ElementInjector)
    (rootElementClone : DomNode) (rootBindingOffset : Nat)
    (elementsWithBindings : List DomNode) (i : Nat) :
    List ElementBinder → InstState → Option InstState
  | [], st => some st
  | b :: rest, st =>
      match processBinder hostElementInjector rootElementClone rootBindingOffset
          elementsWithBindings i b st with
      | none => none
      | some st' =>
          instantiateLoop hostElementInjector rootElementClone rootBindingOffset
            elementsWithBindings (i + 1) rest st'
termination_by binders _ => sizeOf binders
decreasing_by
  all_goals simp_wf
  all_goals omega

/-- One binder iteration: element resolution, element-injector
construction, property-element tracking, text-node resolution and the
recursive nested-component instantiation; the remaining sections are
`finishBinder`. -/
def processBinder (hostElementInjector : Option ElementInjector)
    (rootElementClone : DomNode) (rootBindingOffset : Nat)
    (elementsWithBindings : List DomNode) (i : Nat) (b : ElementBinder)
    (st : InstState) : Option InstState :=
  match resolveBinderElement rootElementClone rootBindingOffset elementsWithBindings i with
  | none => none
  | some element =>
      let injectorStep : Option ElementInjector × List ElementInjector :=
        match b.protoElementInjector with
        | none => (none, st.rootElementInjectors)
        | some protoElementInjector =>
            match protoElementInjector.parent with
            | some parentProto =>
                let parentElementInjector :=
                  (st.elementInjectors.get? parentProto.index).join
                (some (protoElementInjector.instantiate parentElementInjector none),
                 st.rootElementInjectors)
            | none =>
                let ei := protoElementInjector.instantiate none hostElementInjector
                (some ei, st.rootElementInjectors ++ [ei])
      let elementInjector := injectorStep.1
      let st := { st with elementInjectors := st.elementInjectors ++ [elementInjector],
                          rootElementInjectors := injectorStep.2 }
      let st := if b.hasElementPropertyBindings
        then { st with elementsWithPropertyBindings :=
                 st.elementsWithPropertyBindings ++ [element] }
        else st
      let textNodesStep : Option (List DomNode) :=
        match b.textNodeIndices with
        | none => some []
        | some textNodeIndices => resolveTextNodes element.childList textNodeIndices
      match textNodesStep with
      | none => none
      | some newTextNodes =>
          let st := { st with textNodes := st.textNodes ++ newTextNodes }
          match b.componentDirective with
          | some componentDirective =>
              match hnp : b.nestedProtoView with
              | none => none
              | some nestedProtoView =>
                  match nestedProtoView.instantiate elementInjector with
                  | none => none
                  | some childView =>
                      let lightDom : Option LightDom :=
                        if componentDirective.shadowDomStrategy.emulated
                        then some { hostElement := element } else none
                      let st := { st with
                        componentChildViews := st.componentChildViews ++ [childView],
                        childRecordRanges := st.childRecordRanges ++ [childView.recordRange] }
                      finishBinder b element elementInjector lightDom st
          | none => finishBinder b element elementInjector none st
termination_by sizeOf b
decreasing_by
  simp_wf
  have := ElementBinder.sizeOf_nestedProtoView_lt hnp
  omega
end

/-! ## View lifecycle: dehydrate and hydrate -/

mutual
/-- `dehydrate()` (source lines 173–196): child component views first, then
clear directives on every present element injector, then dehydrate the
viewports — tolerating a null viewport list — then clear the context.
`none` models the JS crash when `componentChildViews` or `elementInjectors`
was never initialized.  (`rootElementInjectors` alias entries of
`elementInjectors`; their cleared state is tracked through
`elementInjectors`.) -/
def View.dehydrate (v : View) : Option View :=
  match v with
  | .mk p n r e ri t b cs vp pb _ cwl =>
      match cs with
      | none => none
      | some childViews =>
          match dehydrateChildren childViews with
          | none => none
          | some childViews' =>
              match e with
              | none => none
              | some elementInjectors =>
                  let elementInjectors' :=
                    elementInjectors.map (Option.map ElementInjector.clearDirectives)
                  let viewPorts' := vp.map (fun ports => ports.map ViewPort.dehydrate)
                  some (.mk p n r (some elementInjectors') ri t b (some childViews')
                    viewPorts' pb none (cwl.map Ctx.clearValues))
termination_by sizeOf v

/-- The child-view loop of `dehydrate` (source lines 177–179). -/
def dehydrateChildren : List View → Option (List View)
  | [] => some []
  | c :: rest =>
      match c.dehydrate with
      | none => none
      | some c' =>
          match dehydrateChildren rest with
          | none => none
          | some rest' => some (c' :: rest')
termination_by l => sizeOf l
end

mutual
/-- The DEHYDRATED lifecycle state, recursively: no context here and in
every component child view (vacuously true over an uninitialized child
list). -/
def View.allDehydrated (v : View) : Bool :=
  match v with
  | .mk _ _ _ _ _ _ _ cs _ _ ctx _ =>
      ctx.isNone &&
        (match cs with
         | none => true
         | some childViews => allDehydratedList childViews)
termination_by sizeOf v

/-- `allDehydrated` over a child-view list. -/
def allDehydratedList : List View → Bool
  | [] => true
  | c :: rest => c.allDehydrated && allDehydratedList rest
termination_by l => sizeOf l
end

/-- The redistribute pass of `hydrate` (source lines 162–170):
`lightDom.redistribute()` is an external DOM effect; what view.js itself
contributes is the dereference of `preBuiltObjects[i]` for every component
binder, which crashes when the bundle is absent. -/
def redistributeCheck (preBuiltObjects : Option (List (Option PreBuiltObjects))) :
    Nat → List ElementBinder → Except ViewError Unit
  | _, [] => .ok ()
  | i, b :: rest =>
      match b.componentDirective with
      | some _ =>
          match preBuiltObjects with
          | none => .error .missingStructure
          | some pbos =>
              match pbos.get? i with
              | some (some _) => redistributeCheck preBuiltObjects (i + 1) rest
              | _ => .error .missingStructure
      | none => redistributeCheck preBuiltObjects (i + 1) rest

mutual
/-- `hydrate(appInjector, hostElementInjector, context)` (source lines
121–171): the invalid-state guard first, then context merge, viewport
hydration, the per-binder directive/child pass, and the redistribute pass.
`missingStructure` models the JS crashes on absent arrays or objects (in
particular a component element whose injector yields no component). -/
def View.hydrate (v : View) (appInjector : Injector)
    (hostElementInjector : Option ElementInjector) (context : Ctx) :
    Except ViewError View :=
  match v with
  | .mk p n r e ri t b cs vp pb ctx cwl =>
      if ctx.isSome then .error .alreadyHydrated
      else
        let newCtx := match cwl with
          | some locals => locals.setParent context
          | none => context
        let r' := r.setContext (some newCtx)
        let cwl' := cwl.map (fun _ => newCtx)
        match vp with
        | none => .error .missingStructure
        | some ports =>
            let ports' := ports.map (fun port => port.hydrate appInjector hostElementInjector)
            match hydrateBinders appInjector p.elementBinders 0 e cs [] with
            | .error err => .error err
            | .ok (e', cs') =>
                match redistributeCheck pb 0 p.elementBinders with
                | .error err => .error err
                | .ok _ =>
                    .ok (.mk p n r' e' ri t b cs' (some ports') pb (some newCtx) cwl')
termination_by sizeOf v
decreasing_by
  simp_wf
  have := ProtoView.sizeOf_elementBinders_lt p
  omega

/-- The binder loop of `hydrate` (source lines 131–159): per binder, build
the shadow-DOM app injector for components, instantiate the directives on
the element injector, and recursively hydrate the matching component child
view with the component instance as context.  The source walks
`componentChildViews` with an incrementing index; here the not-yet-consumed
suffix is threaded and its head taken at each component binder, which is
the same sequential access.  The element-injector and child-view arrays
stay unwrapped (`none`) until first accessed, matching where the JS null
dereference would occur. -/
def hydrateBinders (appInjector : Injector) (binders : List ElementBinder) (i : Nat)
    (elementInjectorsOpt : Option (List (Option ElementInjector)))
    (remainingChildrenOpt : Option (List View))
    (hydratedChildren : List View) :
    Except ViewError
      (Option (List (Option ElementInjector)) × Option (List View)) :=
  match binders with
  | [] =>
      .ok (elementInjectorsOpt,
        match remainingChildrenOpt with
        | none => none
        | some remaining => some (hydratedChildren ++ remaining))
  | binder :: rest =>
      let componentDirective := binder.componentDirective
      let shadowDomAppInjector : Option Injector :=
        match componentDirective with
        | some cd =>
            match cd.annotation.componentServices with
            | some services => some (appInjector.createChild services)
            | none => some appInjector
        | none => none
      match elementInjectorsOpt with
      | none => .error .missingStructure
      | some elementInjectors =>
          let elementInjector := (elementInjectors.get? i).join
          let instantiated : Option ElementInjector × List (Option ElementInjector) :=
            match elementInjector with
            | some ei =>
                let ei' := ei.instantiateDirectives appInjector shadowDomAppInjector
                (some ei', elementInjectors.set i (some ei'))
            | none => (none, elementInjectors)
          match componentDirective with
          | none =>
              hydrateBinders appInjector rest (i + 1) (some instantiated.2)
                remainingChildrenOpt hydratedChildren
          | some _ =>
              match remainingChildrenOpt with
              | none => .error .missingStructure
              | some remaining =>
                  match remaining with
                  | [] => .error .missingStructure
                  | childView :: restChildren =>
                      match instantiated.1 with
                      | none => .error .missingStructure
                      | some ei' =>
                          match ei'.getComponent with
                          | none => .error .missingStructure
                          | some component =>
                              match shadowDomAppInjector with
                              | none => .error .missingStructure
                              | some shadowInjector =>
                                  match childView.hydrate shadowInjector (some ei')
                                      (Ctx.component component) with
                                  | .error err => .error err
                                  | .ok hydratedChild =>
                                      hydrateBinders appInjector rest (i + 1)
                                        (some instantiated.2) (some restChildren)
                                        (hydratedChildren ++ [hydratedChild])
termination_by sizeOf binders + sizeOf remainingChildrenOpt
decreasing_by
  all_goals simp_wf
  all_goals omega
end

/-! ## Projection lemmas for the hand-rolled accessors -/

@[simp] theorem ProtoView.element_mk (e b p v l t c i r tm) :
    (ProtoView.mk e b p v l t c i r tm).element = e := rfl
@[simp] theorem ProtoView.elementBinders_mk (e b p v l t c i r tm) :
    (ProtoView.mk e b p v l t c i r tm).elementBinders = b := rfl
@[simp] theorem ProtoView.protoRecordRange_mk (e b p v l t c i r tm) :
    (ProtoView.mk e b p v l t c i r tm).protoRecordRange = p := rfl
@[simp] theorem ProtoView.variableBindings_mk (e b p v l t c i r tm) :
    (ProtoView.mk e b p v l t c i r tm).variableBindings = v := rfl
@[simp] theorem ProtoView.protoContextLocals_mk (e b p v l t c i r tm) :
    (ProtoView.mk e b p v l t c i r tm).protoContextLocals = l := rfl
@[simp] theorem ProtoView.textNodesWithBindingCount_mk (e b p v l t c i r tm) :
    (ProtoView.mk e b p v l t c i r tm).textNodesWithBindingCount = t := rfl
@[simp] theorem ProtoView.elementsWithBindingCount_mk (e b p v l t c i r tm) :
    (ProtoView.mk e b p v l t c i r tm).elementsWithBindingCount = c := rfl
@[simp] theorem ProtoView.instantiateInPlace_mk (e b p v l t c i r tm) :
    (ProtoView.mk e b p v l t c i r tm).instantiateInPlace = i := rfl
@[simp] theorem ProtoView.rootBindingOffset_mk (e b p v l t c i r tm) :
    (ProtoView.mk e b p v l t c i r tm).rootBindingOffset = r := rfl
@[simp] theorem ProtoView.isTemplateElement_mk (e b p v l t c i r tm) :
    (ProtoView.mk e b p v l t c i r tm).isTemplateElement = tm := rfl

@[simp] theorem ElementBinder.protoElementInjector_mk (p c td n t h e) :
    (ElementBinder.mk p c td n t h e).protoElementInjector = p := rfl
@[simp] theorem ElementBinder.componentDirective_mk (p c td n t h e) :
    (ElementBinder.mk p c td n t h e).componentDirective = c := rfl
@[simp] theorem ElementBinder.templateDirective_mk (p c td n t h e) :
    (ElementBinder.mk p c td n t h e).templateDirective = td := rfl
@[simp] theorem ElementBinder.nestedProtoView_mk (p c td n t h e) :
    (ElementBinder.mk p c td n t h e).nestedProtoView = n := rfl
@[simp] theorem ElementBinder.textNodeIndices_mk (p c td n t h e) :
    (ElementBinder.mk p c td n t h e).textNodeIndices = t := rfl
@[simp] theorem ElementBinder.hasElementPropertyBindings_mk (p c td n t h e) :
    (ElementBinder.mk p c td n t h e).hasElementPropertyBindings = h := rfl
@[simp] theorem ElementBinder.events_mk (p c td n t h e) :
    (ElementBinder.mk p c td n t h e).events = e := rfl

@[simp] theorem View.proto_mk (p n r e ri t b c vp pb ctx cwl) :
    (View.mk p n r e ri t b c vp pb ctx cwl).proto = p := rfl
@[simp] theorem View.nodes_mk (p n r e ri t b c vp pb ctx cwl) :
    (View.mk p n r e ri t b c vp pb ctx cwl).nodes = n := rfl
@[simp] theorem View.recordRange_mk (p n r e ri t b c vp pb ctx cwl) :
    (View.mk p n r e ri t b c vp pb ctx cwl).recordRange = r := rfl
@[simp] theorem View.elementInjectors_mk (p n r e ri t b c vp pb ctx cwl) :
    (View.mk p n r e ri t b c vp pb ctx cwl).elementInjectors = e := rfl
@[simp] theorem View.rootElementInjectors_mk (p n r e ri t b c vp pb ctx cwl) :
    (View.mk p n r e ri t b c vp pb ctx cwl).rootElementInjectors = ri := rfl
@[simp] theorem View.textNodes_mk (p n r e ri t b c vp pb ctx cwl) :
    (View.mk p n r e ri t b c vp pb ctx cwl).textNodes = t := rfl
@[simp] theorem View.bindElements_mk (p n r e ri t b c vp pb ctx cwl) :
    (View.mk p n r e ri t b c vp pb ctx cwl).bindElements = b := rfl
@[simp] theorem View.componentChildViews_mk (p n r e ri t b c vp pb ctx cwl) :
    (View.mk p n r e ri t b c vp pb ctx cwl).componentChildViews = c := rfl
@[simp] theorem View.viewPorts_mk (p n r e ri t b c vp pb ctx cwl) :
    (View.mk p n r e ri t b c vp pb ctx cwl).viewPorts = vp := rfl
@[simp] theorem View.preBuiltObjects_mk (p n r e ri t b c vp pb ctx cwl) :
    (View.mk p n r e ri t b c vp pb ctx cwl).preBuiltObjects = pb := rfl
@[simp] theorem View.context_mk (p n r e ri t b c vp pb ctx cwl) :
    (View.mk p n r e ri t b c vp pb ctx cwl).context = ctx := rfl
@[simp] theorem View.contextWithLocals_mk (p n r e ri t b c vp pb ctx cwl) :
    (View.mk p n r e ri t b c vp pb ctx cwl).contextWithLocals = cwl := rfl

@[simp] theorem RecordRange.proto_of_mk (p c ch) : (RecordRange.mk p c ch).proto = p := rfl
@[simp] theorem RecordRange.context_of_mk (p c ch) : (RecordRange.mk p c ch).context = c := rfl
@[simp] theorem RecordRange.children_of_mk (p c ch) : (RecordRange.mk p c ch).children = ch := rfl

@[simp] theorem ProtoElementInjector.parent_mk (p i b f) :
    (ProtoElementInjector.mk p i b f).parent = p := rfl
@[simp] theorem ProtoElementInjector.index_mk (p i b f) :
    (ProtoElementInjector.mk p i b f).index = i := rfl
@[simp] theorem ProtoElementInjector.bindings_mk (p i b f) :
    (ProtoElementInjector.mk p i b f).bindings = b := rfl
@[simp] theorem ProtoElementInjector.firstBindingIsComponent_mk (p i b f) :
    (ProtoElementInjector.mk p i b f).firstBindingIsComponent = f := rfl

/-! ## Association-map lemmas -/

theorem amGet_amSet_self {κ α : Type} [DecidableEq κ] (m : List (κ × α)) (k : κ) (v : α) :
    amGet (amSet m k v) k = some v := by
  induction m with
  | nil => simp [amSet, amGet]
  | cons kv rest ih =>
      by_cases h : kv.1 = k
      · simp [amSet, h, amGet]
      · simp [amSet, amGet, h, ih]

theorem amGet_amSet_ne {κ α : Type} [DecidableEq κ] (m : List (κ × α)) (k k' : κ) (v : α)
    (h : k ≠ k') : amGet (amSet m k v) k' = amGet m k' := by
  induction m with
  | nil => simp [amSet, amGet, h]
  | cons kv rest ih =>
      by_cases hk : kv.1 = k
      · simp [amSet, hk, amGet, h]
      · simp [amSet, amGet, hk, ih]

theorem amGet_mem {κ α : Type} [DecidableEq κ] {m : List (κ × α)} {k : κ} {v : α}
    (h : amGet m k = some v) : (k, v) ∈ m := by
  induction m with
  | nil => simp [amGet] at h
  | cons kv rest ih =>
      obtain ⟨k1, v1⟩ := kv
      by_cases hk : k1 = k
      · subst hk
        simp [amGet] at h
        subst h
        exact List.mem_cons_self _ _
      · simp [amGet, hk] at h
        exact List.mem_cons_of_mem _ (ih h)

theorem mem_amSet {κ α : Type} [DecidableEq κ] {m : List (κ × α)} {k : κ} {v : α}
    {x : κ × α} (h : x ∈ amSet m k v) : x ∈ m ∨ x = (k, v) := by
  induction m with
  | nil => simp [amSet] at h; simp [h]
  | cons kv rest ih =>
      by_cases hk : kv.1 = k
      · simp [amSet, hk] at h
        rcases h with h | h
        · right; simp [h]
        · left; exact List.mem_cons_of_mem _ h
      · simp [amSet, hk] at h
        rcases h with h | h
        · left; simp [h]
        · rcases ih h with h' | h'
          · left; exact List.mem_cons_of_mem _ h'
          · right; exact h'

theorem amSet_length_of_not_mem {κ α : Type} [DecidableEq κ] {m : List (κ × α)} {k : κ}
    (v : α) (h : amGet m k = none) : (amSet m k v).length = m.length + 1 := by
  induction m with
  | nil => simp [amSet]
  | cons kv rest ih =>
      by_cases hk : kv.1 = k
      · simp [amGet, hk] at h
      · simp [amGet, hk] at h
        simp [amSet, hk, ih h]

/-! ## C3 — group-memento interning -/

/-- Invariant of the `_groups` table: every entry is stored under its own
composite key.  It holds for the empty table and is preserved by `get`. -/
def groupsWellFormed (groups : GroupsTable) : Prop :=
  ∀ kg ∈ groups, kg.1 = kg.2.elementInjectorIndex * 100 + kg.2.directiveIndex

theorem groupsWellFormed_nil : groupsWellFormed [] := by
  intro kg h
  simp at h

theorem groupsWellFormed_get (m : DirectivePropertyMemento) (σ : GroupsTable)
    (hwf : groupsWellFormed σ) :
    groupsWellFormed (DirectivePropertyGroupMemento.get m σ).2 := by
  unfold DirectivePropertyGroupMemento.get
  cases hget : amGet σ (m.elementInjectorIndex * 100 + m.directiveIndex) with
  | some g => simpa [hget] using hwf
  | none =>
      simp only [hget]
      intro kg hmem
      rcases mem_amSet hmem with h | h
      · exact hwf kg h
      · simp [h]

theorem group_get_selfKey (m : DirectivePropertyMemento) (σ : GroupsTable)
    (hwf : groupsWellFormed σ) :
    (DirectivePropertyGroupMemento.get m σ).1.elementInjectorIndex * 100 +
        (DirectivePropertyGroupMemento.get m σ).1.directiveIndex =
      m.elementInjectorIndex * 100 + m.directiveIndex := by
  unfold DirectivePropertyGroupMemento.get
  cases hget : amGet σ (m.elementInjectorIndex * 100 + m.directiveIndex) with
  | some g =>
      have hk := hwf _ (amGet_mem hget)
      simp only at hk
      simp [hget]
      omega
  | none => simp [hget]

/--
C3 (counterexample): `DirectivePropertyGroupMemento.get` is keyed by the
composite integer `elementInjectorIndex * 100 + directiveIndex`, which
collides for the distinct index pairs (0, 100) and (1, 0): interning the
second memento after the first returns the very same group-memento object,
so mementos with different index pairs do not always receive distinct
group mementos.
-/
theorem directivePropertyGroupMemento_get_collision :
    ((0 : Int), (100 : Int)) ≠ ((1 : Int), (0 : Int)) ∧
    (DirectivePropertyGroupMemento.get
        { elementInjectorIndex := 1, directiveIndex := 0, setterName := "b" }
        (DirectivePropertyGroupMemento.get
          { elementInjectorIndex := 0, directiveIndex := 100, setterName := "a" }
          ([] : GroupsTable)).2).1 =
      (DirectivePropertyGroupMemento.get
        { elementInjectorIndex := 0, directiveIndex := 100, setterName := "a" }
        ([] : GroupsTable)).1 := by
  constructor
  · decide
  · rfl

/--
C3 (amended): over a well-formed interning table,
`DirectivePropertyGroupMemento.get` returns the same shared group memento
for two mementos with equal (elementInjectorIndex, directiveIndex) pairs,
and distinct group mementos for two mementos whose composite keys
`elementInjectorIndex * 100 + directiveIndex` differ (so distinctness of
the pairs alone suffices only while the pairs do not collide modulo the
multiplier, e.g. when directive indices lie in [0, 100)).
-/
theorem directivePropertyGroupMemento_get_interning
    (m1 m2 : DirectivePropertyMemento) (σ : GroupsTable)
    (hwf : groupsWellFormed σ) :
    ((m1.elementInjectorIndex = m2.elementInjectorIndex ∧
        m1.directiveIndex = m2.directiveIndex) →
      (DirectivePropertyGroupMemento.get m2
          (DirectivePropertyGroupMemento.get m1 σ).2).1 =
        (DirectivePropertyGroupMemento.get m1 σ).1) ∧
    (m1.elementInjectorIndex * 100 + m1.directiveIndex ≠
        m2.elementInjectorIndex * 100 + m2.directiveIndex →
      (DirectivePropertyGroupMemento.get m2
          (DirectivePropertyGroupMemento.get m1 σ).2).1 ≠
        (DirectivePropertyGroupMemento.get m1 σ).1) := by
  constructor
  · rintro ⟨he, hd⟩
    unfold DirectivePropertyGroupMemento.get
    rw [he, hd]
    cases hget : amGet σ (m2.elementInjectorIndex * 100 + m2.directiveIndex) with
    | some g => simp [hget]
    | none => simp [hget, amGet_amSet_self]
  · intro hkeys heq
    have h2 := group_get_selfKey m2 (DirectivePropertyGroupMemento.get m1 σ).2
      (groupsWellFormed_get m1 σ hwf)
    have h1 := group_get_selfKey m1 σ hwf
    rw [heq] at h2
    omega

/-- Witness for the amended C3 theorem at a concrete table and mementos. -/
theorem directivePropertyGroupMemento_get_interning_witness :
    groupsWellFormed ([] : GroupsTable) ∧
    ((({ elementInjectorIndex := 0, directiveIndex := 0, setterName := "x" } :
          DirectivePropertyMemento).elementInjectorIndex =
        ({ elementInjectorIndex := 0, directiveIndex := 1, setterName := "y" } :
          DirectivePropertyMemento).elementInjectorIndex ∧
      ({ elementInjectorIndex := 0, directiveIndex := 0, setterName := "x" } :
          DirectivePropertyMemento).directiveIndex =
        ({ elementInjectorIndex := 0, directiveIndex := 1, setterName := "y" } :
          DirectivePropertyMemento).directiveIndex →
      (DirectivePropertyGroupMemento.get
          { elementInjectorIndex := 0, directiveIndex := 1, setterName := "y" }
          (DirectivePropertyGroupMemento.get
            { elementInjectorIndex := 0, directiveIndex := 0, setterName := "x" }
            ([] : GroupsTable)).2).1 =
        (DirectivePropertyGroupMemento.get
          { elementInjectorIndex := 0, directiveIndex := 0, setterName := "x" }
          ([] : GroupsTable)).1) ∧
    (({ elementInjectorIndex := 0, directiveIndex := 0, setterName := "x" } :
          DirectivePropertyMemento).elementInjectorIndex * 100 +
        ({ elementInjectorIndex := 0, directiveIndex := 0, setterName := "x" } :
          DirectivePropertyMemento).directiveIndex ≠
      ({ elementInjectorIndex := 0, directiveIndex := 1, setterName := "y" } :
          DirectivePropertyMemento).elementInjectorIndex * 100 +
        ({ elementInjectorIndex := 0, directiveIndex := 1, setterName := "y" } :
          DirectivePropertyMemento).directiveIndex →
      (DirectivePropertyGroupMemento.get
          { elementInjectorIndex := 0, directiveIndex := 1, setterName := "y" }
          (DirectivePropertyGroupMemento.get
            { elementInjectorIndex := 0, directiveIndex := 0, setterName := "x" }
            ([] : GroupsTable)).2).1 ≠
        (DirectivePropertyGroupMemento.get
          { elementInjectorIndex := 0, directiveIndex := 0, setterName := "x" }
          ([] : GroupsTable)).1)) :=
  ⟨groupsWellFormed_nil,
   directivePropertyGroupMemento_get_interning
     { elementInjectorIndex := 0, directiveIndex := 0, setterName := "x" }
     { elementInjectorIndex := 0, directiveIndex := 1, setterName := "y" }
     ([] : GroupsTable) groupsWellFormed_nil⟩

/-! ## C9 — views start dehydrated; hydrated ⇔ context present -/

/--
C9: every newly constructed View — in particular every View returned by
`ProtoView.instantiate` — starts dehydrated (`context` null, `hydrated()`
false), and for every View `hydrated()` is true exactly when `context` is
non-null.
-/
theorem view_starts_dehydrated_and_hydrated_iff_context :
    (∀ (proto : ProtoView) (nodes : List DomNode) (prr : ProtoRecordRange)
        (pcl : List (String × Val)),
      (View.new proto nodes prr pcl).context = none ∧
      (View.new proto nodes prr pcl).hydrated = false) ∧
    (∀ (pv : ProtoView) (host : Option ElementInjector) (view : View),
      pv.instantiate host = some view →
      view.context = none ∧ view.hydrated = false) ∧
    (∀ v : View, v.hydrated = true ↔ v.context ≠ none) := by
  refine ⟨fun proto nodes prr pcl => ?_, fun pv host view h => ?_, fun v => ?_⟩
  · simp [View.new, View.hydrated]
  · simp only [ProtoView.instantiate] at h
    split at h
    · simp at h
    · split at h
      · simp at h
      · obtain rfl := Option.some.inj h
        constructor
        · simp [View.new, View.init]
        · simp [View.new, View.init, View.hydrated]
  · cases hc : v.context <;> simp [View.hydrated, hc]

def demoTemplateElement : DomNode := .element "div" [] false []

def demoProtoView : ProtoView := ProtoView.new (some demoTemplateElement) ProtoRecordRange.new

def demoInstantiatedView : View :=
  View.mk demoProtoView [demoTemplateElement] (.mk ProtoRecordRange.new none [])
    (some []) (some []) (some []) (some []) (some []) (some []) (some []) none none

/-- Witness for C9 at a concrete instantiation. -/
theorem view_starts_dehydrated_witness :
    demoProtoView.instantiate none = some demoInstantiatedView ∧
    demoInstantiatedView.context = none ∧
    demoInstantiatedView.hydrated = false ∧
    (demoInstantiatedView.hydrated = true ↔ demoInstantiatedView.context ≠ none) := by
  have h : demoProtoView.instantiate none = some demoInstantiatedView := by
    simp [demoProtoView, demoTemplateElement, demoInstantiatedView, ProtoView.new,
      ProtoView.instantiate, instantiateLoop, InstState.initial, View.new, View.init,
      DomNode.hasClass, DomNode.isTemplateElement, DomNode.clone,
      rootElementCloneFor, elementsWithBindingsFor, viewNodesFor,
      DomNode.getElementsByClassNameBound, DomNode.childList, collectBoundList,
      ProtoRecordRange.instantiate]
  exact ⟨h, (view_starts_dehydrated_and_hydrated_iff_context.2.1 _ _ _ h).1,
    (view_starts_dehydrated_and_hydrated_iff_context.2.1 _ _ _ h).2,
    view_starts_dehydrated_and_hydrated_iff_context.2.2 demoInstantiatedView⟩

/-! ## C4 — setLocal error conditions and write-through -/

/--
C4: `setLocal` raises the invalid-state error iff the view is dehydrated;
on a hydrated view it raises the undeclared-binding error iff the name is
not in the ProtoView's variable bindings; otherwise it writes the value
through to the template-named slot of the local-variable context.
-/
theorem setLocal_spec (v : View) (name : String) (value : Val) :
    (v.setLocal name value = .error .cannotSetLocalsOnDehydratedView ↔
      v.hydrated = false) ∧
    (v.hydrated = true →
      (v.setLocal name value = .error (.localBindingNotDefined name) ↔
        amContains v.proto.variableBindings name = false)) ∧
    (∀ (parent : Option Ctx) (locals : List (String × Val)) (templateName : String),
      v.context = some (.withLocals parent locals) →
      amGet v.proto.variableBindings name = some templateName →
      ∃ v', v.setLocal name value = .ok v' ∧
        v'.context = some (.withLocals parent (amSet locals templateName value))) := by
  cases v with
  | mk p n r e ri t b cs vp pb ctx cwl =>
      cases ctx with
      | none =>
          refine ⟨by simp [View.setLocal, View.hydrated], by simp [View.hydrated], ?_⟩
          intro parent locals templateName hctx
          simp at hctx
      | some c =>
          refine ⟨?_, ?_, ?_⟩
          · simp only [View.hydrated, View.context_mk, Option.isSome_some]
            cases hget : amGet p.variableBindings name with
            | none =>
                simp [View.setLocal, View.hydrated, amContains, hget]
            | some templateName =>
                cases hset : c.set templateName value with
                | none =>
                    simp [View.setLocal, View.hydrated, amContains, hget, hset]
                | some c' =>
                    simp [View.setLocal, View.hydrated, amContains, hget, hset]
          · intro _
            cases hget : amGet p.variableBindings name with
            | none =>
                simp [View.setLocal, View.hydrated, amContains, hget]
            | some templateName =>
                cases hset : c.set templateName value with
                | none =>
                    simp [View.setLocal, View.hydrated, amContains, hget, hset]
                | some c' =>
                    simp [View.setLocal, View.hydrated, amContains, hget, hset]
          · intro parent locals templateName hctx hget
            simp only [View.context_mk, Option.some.injEq] at hctx
            subst hctx
            refine ⟨?_, ?_, ?_⟩
            · exact .mk p n r e ri t b cs vp pb
                (some (.withLocals parent (amSet locals templateName value)))
                (cwl.map (fun _ => .withLocals parent (amSet locals templateName value)))
            · simp only [View.proto_mk] at hget
              simp [View.setLocal, View.hydrated, amContains, hget, Ctx.set]
            · simp

def demoDehydratedView : View :=
  View.mk demoProtoView [] (.mk ProtoRecordRange.new none []) none none none none
    none none none none none

def demoHydratedLocalsView : View :=
  View.mk
    (ProtoView.mk none [] ProtoRecordRange.new [("a", "tplA")] [("tplA", Val.null)]
      0 0 false 0 false)
    [] (.mk ProtoRecordRange.new none []) none none none none none none none
    (some (.withLocals none [("tplA", Val.null)]))
    (some (.withLocals none [("tplA", Val.null)]))

/-- Witness for C4: a dehydrated view, an undeclared name on a hydrated
view, and a successful write-through, all concrete. -/
theorem setLocal_spec_witness :
    demoDehydratedView.setLocal "x" (.int 1) =
      .error .cannotSetLocalsOnDehydratedView ∧
    demoDehydratedView.hydrated = false ∧
    demoHydratedLocalsView.setLocal "b" (.int 2) =
      .error (.localBindingNotDefined "b") ∧
    ∃ v', demoHydratedLocalsView.setLocal "a" (.int 3) = .ok v' ∧
      v'.context = some (.withLocals none (amSet [("tplA", Val.null)] "tplA" (.int 3))) := by
  refine ⟨?_, ?_, ?_, ?_⟩
  · exact (setLocal_spec demoDehydratedView "x" (.int 1)).1.mpr
      (by simp [demoDehydratedView, View.hydrated])
  · simp [demoDehydratedView, View.hydrated]
  · exact ((setLocal_spec demoHydratedLocalsView "b" (.int 2)).2.1
      (by simp [demoHydratedLocalsView, View.hydrated])).mpr
      (by simp [demoHydratedLocalsView, amContains, amGet])
  · exact (setLocal_spec demoHydratedLocalsView "a" (.int 3)).2.2 none
      [("tplA", Val.null)] "tplA" (by simp [demoHydratedLocalsView])
      (by simp [demoHydratedLocalsView, amGet])

/-! ## C8 — createRootProtoView -/

/--
C8: `createRootProtoView` returns a ProtoView with exactly one element
binder whose `componentDirective` is the supplied root component type and
whose `nestedProtoView` is the supplied ProtoView, with
`instantiateInPlace` set (so `instantiate` uses the insertion element
without cloning), and — because the insertion element is marked bound
before the ProtoView is constructed — with `rootBindingOffset = 1`.
-/
theorem createRootProtoView_spec (protoView : ProtoView) (tag : String)
    (classes : List String) (tmpl : Bool) (children : List DomNode)
    (rootComponentAnnotatedType : DirectiveMetadata) :
    (ProtoView.createRootProtoView protoView (.element tag classes tmpl children)
        rootComponentAnnotatedType).elementBinders =
      [ElementBinder.mk
        (some (.mk none 0 [rootComponentAnnotatedType.type] true))
        (some rootComponentAnnotatedType) none (some protoView) none false none] ∧
    (ProtoView.createRootProtoView protoView (.element tag classes tmpl children)
        rootComponentAnnotatedType).instantiateInPlace = true ∧
    (ProtoView.createRootProtoView protoView (.element tag classes tmpl children)
        rootComponentAnnotatedType).rootBindingOffset = 1 ∧
    (ProtoView.createRootProtoView protoView (.element tag classes tmpl children)
        rootComponentAnnotatedType).element =
      some ((DomNode.element tag classes tmpl children).addClass "ng-binding") := by
  refine ⟨?_, ?_, ?_, ?_⟩ <;>
    simp [ProtoView.createRootProtoView, ProtoView.new, ProtoView.bindElement,
      ProtoView.withInstantiateInPlace, ProtoView.withBinders, ProtoView.updateLastBinder,
      ProtoView.lastBinder, ElementBinder.new, ElementBinder.withComponentDirective,
      ElementBinder.withNestedProtoView, DomNode.addClass, DomNode.hasClass,
      DomNode.isTemplateElement, NG_BINDING_CLASS]
  split <;> simp_all

/-! ## C10 — bind* on an empty binder list -/

def emptyBindersProtoView : ProtoView :=
  ProtoView.new (some (.element "div" [] false [])) ProtoRecordRange.new

/--
C10 (counterexample): on a ProtoView with no element binders,
`bindDirectiveProperty` does not dereference a missing binder and does not
fail — it registers a binding whose memento carries element-injector index
`elementBinders.length - 1 = -1`.
-/
theorem bindDirectiveProperty_empty_binders_registers :
    emptyBindersProtoView.elementBinders = [] ∧
    (emptyBindersProtoView.bindDirectiveProperty 0 ⟨7⟩ "s" false
        []).1.protoRecordRange.records =
      [{ expression := ⟨7⟩,
         expMemento := .directiveProp
           { elementInjectorIndex := -1, directiveIndex := 0, setterName := "s" },
         groupMemento := .directiveGroup
           { elementInjectorIndex := -1, directiveIndex := 0 },
         isContentWatch := false }] := by
  constructor
  · rfl
  · rfl

/--
C10 (amended): on a ProtoView whose binder list is empty, `bindTextNode`,
`bindElementProperty` and `bindEvent` dereference the missing last binder
and fail rather than registering a binding; `bindDirectiveProperty`,
however, only uses `elementBinders.length - 1` as a number and therefore
succeeds, registering a binding whose memento carries element-injector
index `-1` (its dereference failure is deferred to dispatch time).
-/
theorem bind_on_empty_binders (pv : ProtoView) (hempty : pv.elementBinders = [])
    (indexInParent : Nat) (expression : AST) (setterName eventName : String)
    (directiveIndex : Int) (isContentWatch : Bool) (groups : GroupsTable) :
    pv.bindTextNode indexInParent expression = none ∧
    pv.bindElementProperty expression setterName = none ∧
    pv.bindEvent eventName expression = none ∧
    (pv.bindDirectiveProperty directiveIndex expression setterName isContentWatch
        groups).1.protoRecordRange.records =
      pv.protoRecordRange.records ++
        [{ expression := expression,
           expMemento := .directiveProp
             { elementInjectorIndex := -1, directiveIndex := directiveIndex,
               setterName := setterName },
           groupMemento := .directiveGroup
             (DirectivePropertyGroupMemento.get
               { elementInjectorIndex := -1, directiveIndex := directiveIndex,
                 setterName := setterName } groups).1,
           isContentWatch := isContentWatch }] := by
  have hlast : pv.lastBinder = none := by
    simp [ProtoView.lastBinder, hempty]
  refine ⟨?_, ?_, ?_, ?_⟩
  · simp [ProtoView.bindTextNode, hlast]
  · simp [ProtoView.bindElementProperty, hlast]
  · simp [ProtoView.bindEvent, hlast]
  · cases pv with
    | mk e b p v l t c i r tm =>
        simp only [ProtoView.elementBinders_mk] at hempty
        subst hempty
        simp [ProtoView.bindDirectiveProperty, ProtoView.withProtoRecordRange,
          ProtoRecordRange.addRecordsFromAST]

/-- Witness for the amended C10 theorem on a concrete empty-binder
ProtoView. -/
theorem bind_on_empty_binders_witness :
    emptyBindersProtoView.elementBinders = [] ∧
    (emptyBindersProtoView.bindTextNode 0 ⟨1⟩ = none ∧
     emptyBindersProtoView.bindElementProperty ⟨1⟩ "sn" = none ∧
     emptyBindersProtoView.bindEvent "click" ⟨1⟩ = none ∧
     (emptyBindersProtoView.bindDirectiveProperty 2 ⟨1⟩ "sn" false
         []).1.protoRecordRange.records =
       emptyBindersProtoView.protoRecordRange.records ++
         [{ expression := ⟨1⟩,
            expMemento := .directiveProp
              { elementInjectorIndex := -1, directiveIndex := 2, setterName := "sn" },
            groupMemento := .directiveGroup
              (DirectivePropertyGroupMemento.get
                { elementInjectorIndex := -1, directiveIndex := 2,
                  setterName := "sn" } []).1,
            isContentWatch := false }]) :=
  ⟨rfl, bind_on_empty_binders emptyBindersProtoView rfl 0 ⟨1⟩ "sn" "click" 2 false []⟩

/-! ## C6 — text-node memento allocation and dispatch -/

/--
C6: `bindTextNode` allocates text-node mementos from a single counter
shared across the whole ProtoView (0, 1, 2, … strictly increasing in
declaration order: a fresh ProtoView starts at 0 and each call registers
the current counter value and bumps it by one), and `onRecordChange`
dispatches a record whose memento is the plain integer `n` by setting the
text content of `textNodes[n]` to the record's `currentValue`.
-/
theorem bindTextNode_counter_and_text_dispatch :
    (∀ (template : Option DomNode) (prr : ProtoRecordRange),
      (ProtoView.new template prr).textNodesWithBindingCount = 0) ∧
    (∀ (pv pv' : ProtoView) (indexInParent : Nat) (expression : AST),
      pv.bindTextNode indexInParent expression = some pv' →
      pv'.protoRecordRange.records =
        pv.protoRecordRange.records ++
          [{ expression := expression,
             expMemento := .textNode pv.textNodesWithBindingCount,
             groupMemento := .plain (.textNode pv.textNodesWithBindingCount),
             isContentWatch := false }] ∧
      pv'.textNodesWithBindingCount = pv.textNodesWithBindingCount + 1) ∧
    (∀ (v : View) (textNodes : List DomNode) (n : Nat) (node : DomNode)
        (cur prev : Val),
      v.textNodes = some textNodes → textNodes.get? n = some node →
      v.onRecordChange (.plain (.textNode n))
          [{ memento := .textNode n, currentValue := cur, previousValue := prev }] =
        some [.setText n cur]) := by
  refine ⟨fun template prr => by simp [ProtoView.new], ?_, ?_⟩
  · intro pv pv' indexInParent expression h
    cases pv with
    | mk e b p v l t c i r tm =>
        cases hl : b.getLast? with
        | none =>
            simp [ProtoView.bindTextNode, ProtoView.lastBinder, hl] at h
        | some elBinder =>
            simp only [ProtoView.bindTextNode, ProtoView.lastBinder,
              ProtoView.updateLastBinder, ProtoView.withBinders,
              ProtoView.withTextNodesWithBindingCount, ProtoView.withProtoRecordRange,
              ProtoView.elementBinders_mk, ProtoView.textNodesWithBindingCount_mk,
              ProtoView.protoRecordRange_mk, ProtoRecordRange.addRecordsFromAST,
              hl, Option.some.injEq] at h
            subst h
            simp
  · intro v textNodes n node cur prev htn hget
    have hget' : textNodes[n]? = some node := by
      simpa [List.get?_eq_getElem?] using hget
    simp [View.onRecordChange, View.invokeMementoForRecords, View.invokeMementoFor,
      Rec.expressionMemento, htn, hget']

def textDemoProtoView : ProtoView :=
  ((ProtoView.new (some (.element "p" [] false [])) ProtoRecordRange.new).bindElement
    none).1

def demoTextNodesView : View :=
  View.mk demoProtoView [] (.mk ProtoRecordRange.new none []) none none
    (some [.text "old"]) none none none none none none

/-- Witness for C6 at a concrete ProtoView and a concrete text-node
dispatch. -/
theorem bindTextNode_counter_and_text_dispatch_witness :
    textDemoProtoView.textNodesWithBindingCount = 0 ∧
    textDemoProtoView.bindTextNode 2 ⟨5⟩ =
      some (ProtoView.mk (some (.element "p" [] false []))
        [ElementBinder.mk none none none none (some [2]) false none]
        { records := [{ expression := ⟨5⟩, expMemento := .textNode 0,
                        groupMemento := .plain (.textNode 0), isContentWatch := false }] }
        [] [] 1 0 false 0 false) ∧
    (∀ pv', textDemoProtoView.bindTextNode 2 ⟨5⟩ = some pv' →
      pv'.protoRecordRange.records =
        textDemoProtoView.protoRecordRange.records ++
          [{ expression := ⟨5⟩,
             expMemento := .textNode textDemoProtoView.textNodesWithBindingCount,
             groupMemento := .plain (.textNode textDemoProtoView.textNodesWithBindingCount),
             isContentWatch := false }] ∧
      pv'.textNodesWithBindingCount = textDemoProtoView.textNodesWithBindingCount + 1) ∧
    demoTextNodesView.textNodes = some [.text "old"] ∧
    demoTextNodesView.onRecordChange (.plain (.textNode 0))
        [{ memento := .textNode 0, currentValue := .str "hello",
           previousValue := .null }] =
      some [.setText 0 (.str "hello")] :=
  ⟨rfl, rfl,
   fun pv' h => bindTextNode_counter_and_text_dispatch.2.1 textDemoProtoView pv' 2 ⟨5⟩ h,
   rfl,
   bindTextNode_counter_and_text_dispatch.2.2 demoTextNodesView [.text "old"] 0
     (.text "old") (.str "hello") .null rfl rfl⟩

/-! ## C7 — dehydrate is a logical reset, not a DOM detach -/

/--
C7: `dehydrate` dehydrates child component views, clears directives on
every non-null element injector, dehydrates the viewports — succeeding
regardless of whether the viewport list is null — and clears the context,
while the `nodes`, `textNodes`, `bindElements` and `elementInjectors`
sequences themselves (length and null-pattern preserved, injector contents
cleared in place) and the `recordRange` object remain the same, so the view
can be rehydrated without rebuilding injectors or record subscriptions.
-/
theorem dehydrate_spec :
    (∀ (v v' : View), v.dehydrate = some v' →
      v'.nodes = v.nodes ∧
      v'.textNodes = v.textNodes ∧
      v'.bindElements = v.bindElements ∧
      v'.recordRange = v.recordRange ∧
      v'.proto = v.proto ∧
      v'.context = none ∧
      (∀ eis, v.elementInjectors = some eis →
        v'.elementInjectors =
          some (eis.map (Option.map ElementInjector.clearDirectives))) ∧
      (∀ cs, v.componentChildViews = some cs →
        ∃ cs', dehydrateChildren cs = some cs' ∧
          v'.componentChildViews = some cs') ∧
      (v.viewPorts = none → v'.viewPorts = none) ∧
      (∀ ports, v.viewPorts = some ports →
        v'.viewPorts = some (ports.map ViewPort.dehydrate))) ∧
    (∀ p n r e ri t b cs vps vps' pb ctx cwl,
      ((View.mk p n r e ri t b cs vps pb ctx cwl).dehydrate).isSome =
        ((View.mk p n r e ri t b cs vps' pb ctx cwl).dehydrate).isSome) := by
  constructor
  · intro v v' h
    cases v with
    | mk p n r e ri t b cs vp pb ctx cwl =>
        cases cs with
        | none => simp [View.dehydrate] at h
        | some childViews =>
            cases hdc : dehydrateChildren childViews with
            | none => simp [View.dehydrate, hdc] at h
            | some childViews' =>
                cases e with
                | none => simp [View.dehydrate, hdc] at h
                | some elementInjectors =>
                    simp only [View.dehydrate, hdc, Option.some.injEq] at h
                    subst h
                    refine ⟨rfl, rfl, rfl, rfl, rfl, rfl, ?_, ?_, ?_, ?_⟩
                    · intro eis heis
                      simp only [View.elementInjectors_mk, Option.some.injEq] at heis
                      subst heis
                      rfl
                    · intro cs hcs
                      simp only [View.componentChildViews_mk, Option.some.injEq] at hcs
                      subst hcs
                      exact ⟨childViews', hdc, rfl⟩
                    · intro hvp
                      simp only [View.viewPorts_mk] at hvp
                      subst hvp
                      rfl
                    · intro ports hports
                      simp only [View.viewPorts_mk] at hports
                      subst hports
                      rfl
  · intro p n r e ri t b cs vps vps' pb ctx cwl
    cases cs with
    | none => simp [View.dehydrate]
    | some childViews =>
        cases hdc : dehydrateChildren childViews with
        | none => simp [View.dehydrate, hdc]
        | some childViews' =>
            cases e with
            | none => simp [View.dehydrate, hdc]
            | some elementInjectors => simp [View.dehydrate, hdc]

/-- Witness for C7 on a concrete instantiated view. -/
theorem dehydrate_spec_witness :
    demoInstantiatedView.dehydrate = some demoInstantiatedView ∧
    demoInstantiatedView.nodes = demoInstantiatedView.nodes ∧
    demoInstantiatedView.context = none ∧
    demoInstantiatedView.recordRange = demoInstantiatedView.recordRange := by
  have h : demoInstantiatedView.dehydrate = some demoInstantiatedView := by
    simp [demoInstantiatedView, View.dehydrate, dehydrateChildren]
  refine ⟨h, (dehydrate_spec.1 _ _ h).1, ?_, (dehydrate_spec.1 _ _ h).2.2.2.1⟩
  have h6 := (dehydrate_spec.1 _ _ h).2.2.2.2.2.1
  simpa using h6

/-! ## C5 — hydrate invalid-state guard -/

theorem allDehydratedList_mem {l : List View} (hl : allDehydratedList l = true)
    {c : View} (hc : c ∈ l) : c.allDehydrated = true := by
  induction l with
  | nil => simp at hc
  | cons a rest ih =>
      simp only [allDehydratedList, Bool.and_eq_true] at hl
      rcases List.mem_cons.mp hc with h | h
      · subst h
        exact hl.1
      · exact ih hl.2 h

theorem redistributeCheck_ne_alreadyHydrated
    (pb : Option (List (Option PreBuiltObjects))) (i : Nat)
    (binders : List ElementBinder) :
    redistributeCheck pb i binders ≠ .error .alreadyHydrated := by
  induction binders generalizing i with
  | nil => simp [redistributeCheck]
  | cons b rest ih =>
      simp only [redistributeCheck]
      cases b.componentDirective with
      | none => exact ih (i + 1)
      | some cd =>
          cases pb with
          | none => simp
          | some pbos =>
              cases hget : pbos[i]? with
              | none => simp [hget]
              | some entry =>
                  cases entry with
                  | none => simp [hget]
                  | some pbo => simpa [hget] using ih (i + 1)

theorem hydrateBinders_ne_alreadyHydrated (N : Nat)
    (IH : ∀ (w : View), sizeOf w < N → w.allDehydrated = true →
      ∀ (a : Injector) (hei : Option ElementInjector) (c : Ctx),
        w.hydrate a hei c ≠ .error .alreadyHydrated)
    (binders : List ElementBinder) :
    ∀ (appInjector : Injector) (i : Nat)
      (eisOpt : Option (List (Option ElementInjector)))
      (remOpt : Option (List View)) (acc : List View),
      (∀ rem, remOpt = some rem → ∀ c ∈ rem, sizeOf c < N ∧ c.allDehydrated = true) →
      hydrateBinders appInjector binders i eisOpt remOpt acc ≠
        .error .alreadyHydrated := by
  induction binders with
  | nil =>
      intro appInjector i eisOpt remOpt acc _
      rw [hydrateBinders.eq_def]
      cases remOpt <;> simp
  | cons binder rest ih =>
      intro appInjector i eisOpt remOpt acc hrem
      rw [hydrateBinders.eq_def]
      dsimp only
      cases eisOpt with
      | none => simp
      | some eis =>
          dsimp only
          cases hbc : binder.componentDirective with
          | none =>
              dsimp only
              exact ih appInjector (i + 1) _ remOpt acc hrem
          | some cd =>
              dsimp only
              cases remOpt with
              | none => simp
              | some remaining =>
                  dsimp only
                  cases remaining with
                  | nil => simp
                  | cons childView restChildren =>
                      dsimp only
                      cases hei : (eis.get? i).join with
                      | none => simp [hei]
                      | some ei =>
                          simp only [hei]
                          cases hgc : (ei.instantiateDirectives appInjector
                              (match cd.annotation.componentServices with
                               | some services => some (appInjector.createChild services)
                               | none => some appInjector)).getComponent with
                          | none => simp [hgc]
                          | some component =>
                              simp only [hgc]
                              have hchild := hrem (childView :: restChildren) rfl childView
                                (List.mem_cons_self _ _)
                              have hrest : ∀ rem, (some restChildren : Option (List View)) = some rem →
                                  ∀ c ∈ rem, sizeOf c < N ∧ c.allDehydrated = true := by
                                intro rem hr c hc
                                cases hr
                                exact hrem _ rfl c (List.mem_cons_of_mem _ hc)
                              cases hcs : cd.annotation.componentServices with
                              | none =>
                                  simp only [hcs] at hgc ⊢
                                  cases hh : childView.hydrate appInjector
                                      (some (ei.instantiateDirectives appInjector
                                        (some appInjector)))
                                      (Ctx.component component) with
                                  | error err =>
                                      simp only [hh]
                                      have hne := IH childView hchild.1 hchild.2
                                        appInjector
                                        (some (ei.instantiateDirectives appInjector
                                          (some appInjector)))
                                        (Ctx.component component)
                                      rw [hh] at hne
                                      simpa using hne
                                  | ok hydratedChild =>
                                      simp only [hh]
                                      exact ih appInjector (i + 1) _ (some restChildren)
                                        (acc ++ [hydratedChild]) hrest
                              | some services =>
                                  simp only [hcs] at hgc ⊢
                                  cases hh : childView.hydrate
                                      (appInjector.createChild services)
                                      (some (ei.instantiateDirectives appInjector
                                        (some (appInjector.createChild services))))
                                      (Ctx.component component) with
                                  | error err =>
                                      simp only [hh]
                                      have hne := IH childView hchild.1 hchild.2
                                        (appInjector.createChild services)
                                        (some (ei.instantiateDirectives appInjector
                                          (some (appInjector.createChild services))))
                                        (Ctx.component component)
                                      rw [hh] at hne
                                      simpa using hne
                                  | ok hydratedChild =>
                                      simp only [hh]
                                      exact ih appInjector (i + 1) _ (some restChildren)
                                        (acc ++ [hydratedChild]) hrest

theorem hydrate_allDehydrated_ne_alreadyHydrated :
    ∀ (N : Nat) (v : View), sizeOf v < N → v.allDehydrated = true →
      ∀ (a : Injector) (hei : Option ElementInjector) (c : Ctx),
        v.hydrate a hei c ≠ .error .alreadyHydrated := by
  intro N
  induction N with
  | zero => intro v hv; omega
  | succ N IH =>
      intro v hsz hdeh a hei c
      cases v with
      | mk p n r e ri t b cs vp pb ctx cwl =>
          rw [View.allDehydrated.eq_def] at hdeh
          dsimp only at hdeh
          simp only [Bool.and_eq_true] at hdeh
          obtain ⟨hctx, hchildren⟩ := hdeh
          cases ctx with
          | some c0 => simp at hctx
          | none =>
              rw [View.hydrate.eq_def]
              dsimp only
              rw [if_neg (by simp)]
              cases vp with
              | none => simp
              | some ports =>
                  dsimp only
                  have hcvs : ∀ cvs, cs = some cvs →
                      ∀ ch ∈ cvs, sizeOf ch < N ∧ ch.allDehydrated = true := by
                    intro cvs hcs ch hch
                    subst hcs
                    constructor
                    · have h1 := List.sizeOf_lt_of_mem hch
                      simp at hsz
                      omega
                    · exact allDehydratedList_mem hchildren hch
                  have hb := hydrateBinders_ne_alreadyHydrated N
                    (fun w hw hdw => IH w hw hdw) p.elementBinders a 0 e cs [] hcvs
                  cases hres : hydrateBinders a p.elementBinders 0 e cs [] with
                  | error err =>
                      simp only [hres]
                      rw [hres] at hb
                      simpa using hb
                  | ok pair =>
                      simp only [hres]
                      cases hred : redistributeCheck pb 0 p.elementBinders with
                      | error err =>
                          simp only [hred]
                          have hr := redistributeCheck_ne_alreadyHydrated pb 0 p.elementBinders
                          rw [hred] at hr
                          simpa using hr
                      | ok u => simp [hred]

theorem hydrate_invalid_state (v : View) (appInjector : Injector)
    (hostElementInjector : Option ElementInjector) (context : Ctx) :
    (v.hydrated = true →
      v.hydrate appInjector hostElementInjector context = .error .alreadyHydrated) ∧
    (v.allDehydrated = true →
      v.hydrate appInjector hostElementInjector context ≠ .error .alreadyHydrated) := by
  constructor
  · intro hh
    cases v with
    | mk p n r e ri t b cs vp pb ctx cwl =>
        simp only [View.hydrated, View.context_mk] at hh
        rw [View.hydrate.eq_def]
        dsimp only
        rw [if_pos hh]
  · intro hdeh
    exact hydrate_allDehydrated_ne_alreadyHydrated (sizeOf v + 1) v (by omega) hdeh
      appInjector hostElementInjector context

def demoHydratedView : View :=
  View.mk demoProtoView [] (.mk ProtoRecordRange.new none []) none none none none
    none none none (some (.plain .null)) none

/-- Witness for C5 on a concrete hydrated view and a concrete dehydrated
view. -/
theorem hydrate_invalid_state_witness :
    demoHydratedView.hydrated = true ∧
    demoHydratedView.hydrate .root none (.plain (.int 5)) =
      .error .alreadyHydrated ∧
    demoDehydratedView.allDehydrated = true ∧
    demoDehydratedView.hydrate .root none (.plain (.int 5)) ≠
      .error .alreadyHydrated := by
  refine ⟨?_, ?_, ?_, ?_⟩
  · simp [demoHydratedView, View.hydrated]
  · exact (hydrate_invalid_state demoHydratedView .root none (.plain (.int 5))).1
      (by simp [demoHydratedView, View.hydrated])
  · simp [demoDehydratedView, View.allDehydrated]
  · exact (hydrate_invalid_state demoDehydratedView .root none (.plain (.int 5))).2
      (by simp [demoDehydratedView, View.allDehydrated])

/-! ## C1 — one aggregated onChange notification per batch -/

/-- The setter-application event a record's memento produces when its
dispatch succeeds. -/
def Rec.dispatchEvent (r : Rec) : DispatchEvent :=
  match r.memento with
  | .directiveProp m =>
      .setDirectiveProp m.elementInjectorIndex m.directiveIndex m.setterName
        r.currentValue
  | .elementProp m => .setElementProp m.elementIndex m.setterName r.currentValue
  | .textNode n => .setText n r.currentValue

/-- Is this event the aggregated `onChange` callback? -/
def DispatchEvent.isNotifyOnChange : DispatchEvent → Bool
  | .notifyOnChange _ _ _ => true
  | _ => false

theorem directiveMemento_invoke_eq {m : DirectivePropertyMemento} {r : Rec}
    {eis : List (Option ElementInjector)} (hm : r.memento = .directiveProp m)
    (hres : m.invoke r eis ≠ none) :
    m.invoke r eis = some r.dispatchEvent := by
  unfold DirectivePropertyMemento.invoke at hres ⊢
  cases hget : listGetInt eis m.elementInjectorIndex with
  | none => simp [hget] at hres
  | some oei =>
      cases oei with
      | none => simp [hget] at hres
      | some ei =>
          cases hat : ei.getAtIndex m.directiveIndex with
          | none => simp [hget, hat] at hres
          | some d => simp [hat, Rec.dispatchEvent, hm]

theorem invokeMementoForRecords_all_directive (v : View)
    (eis : List (Option ElementInjector)) (heis : v.elementInjectors = some eis)
    (records : List Rec)
    (hrecs : ∀ r ∈ records, ∃ m, r.memento = .directiveProp m ∧
      m.invoke r eis ≠ none) :
    v.invokeMementoForRecords records = some (records.map Rec.dispatchEvent) := by
  induction records with
  | nil => simp [View.invokeMementoForRecords]
  | cons r rest ih =>
      obtain ⟨m, hm, hres⟩ := hrecs r (List.mem_cons_self _ _)
      have hone : v.invokeMementoFor r = some r.dispatchEvent := by
        rw [View.invokeMementoFor, Rec.expressionMemento, hm]
        simp only [heis, Option.some_bind]
        exact directiveMemento_invoke_eq hm hres
      have hrest := ih (fun r' hr' => hrecs r' (List.mem_cons_of_mem _ hr'))
      simp [View.invokeMementoForRecords, hone, hrest]

@[simp] theorem Rec.expressionMemento_eq (r : Rec) : r.expressionMemento = r.memento :=
  rfl

/-- One fold step of `_collectChanges`. -/
theorem collectChanges_foldl (records : List Rec) :
    View.collectChanges records =
      records.foldl
        (fun changes record =>
          amSet changes record.expressionMemento.setterNameField
            { currentValue := record.currentValue,
              previousValue := record.previousValue }) [] := rfl

theorem collectChanges_foldl_preserve (records : List Rec)
    (acc : List (Option String × PropertyUpdate)) (k : Option String)
    (hk : ∀ r ∈ records, r.memento.setterNameField ≠ k) :
    amGet (records.foldl
      (fun changes record =>
        amSet changes record.expressionMemento.setterNameField
          { currentValue := record.currentValue,
            previousValue := record.previousValue }) acc) k = amGet acc k := by
  induction records generalizing acc with
  | nil => rfl
  | cons r rest ih =>
      have hr := hk r (List.mem_cons_self _ _)
      rw [List.foldl_cons, ih _ (fun r' h => hk r' (List.mem_cons_of_mem _ h))]
      exact amGet_amSet_ne _ _ _ _ hr

theorem collectChanges_foldl_lookup (records : List Rec)
    (hkeys : (records.map (fun r => r.memento.setterNameField)).Nodup) :
    ∀ (acc : List (Option String × PropertyUpdate)) (r : Rec), r ∈ records →
      amGet (records.foldl
        (fun changes record =>
          amSet changes record.expressionMemento.setterNameField
            { currentValue := record.currentValue,
              previousValue := record.previousValue }) acc)
          r.memento.setterNameField =
        some { currentValue := r.currentValue, previousValue := r.previousValue } := by
  induction records with
  | nil => intro acc r hr; simp at hr
  | cons a rest ih =>
      intro acc r hr
      simp only [List.map_cons, List.nodup_cons, List.mem_map] at hkeys
      rcases List.mem_cons.mp hr with h | h
      · subst h
        rw [List.foldl_cons]
        rw [collectChanges_foldl_preserve rest _ _
          (fun r' h' hkeq => hkeys.1 ⟨r', h', hkeq⟩)]
        exact amGet_amSet_self _ _ _
      · exact ih hkeys.2 _ r h

theorem collectChanges_foldl_length (records : List Rec)
    (hkeys : (records.map (fun r => r.memento.setterNameField)).Nodup) :
    ∀ (acc : List (Option String × PropertyUpdate)),
      (∀ r ∈ records, amGet acc r.memento.setterNameField = none) →
      (records.foldl
        (fun changes record =>
          amSet changes record.expressionMemento.setterNameField
            { currentValue := record.currentValue,
              previousValue := record.previousValue }) acc).length =
        acc.length + records.length := by
  simp only [Rec.expressionMemento_eq]
  induction records with
  | nil => intro acc _; simp
  | cons a rest ih =>
      intro acc hacc
      simp only [List.map_cons, List.nodup_cons, List.mem_map] at hkeys
      rw [List.foldl_cons]
      rw [ih hkeys.2 _ ?_]
      · rw [amSet_length_of_not_mem _ (hacc a (List.mem_cons_self _ _))]
        simp only [List.length_cons]
        omega
      · intro r hr
        rw [amGet_amSet_ne]
        · exact hacc r (List.mem_cons_of_mem _ hr)
        · intro hkeq
          exact hkeys.1 ⟨r, hr, hkeq.symm⟩

/--
C1: when `onRecordChange` is called with a directive-property group memento
whose directive implements the on-change capability, every per-record
memento is applied first and the directive's change callback is invoked
exactly once, as the last event of the batch, with a mapping that has one
entry per record keyed by the record's setter name holding that record's
{currentValue, previousValue} pair — so N simultaneously changed bound
properties yield one aggregated notification, not N.
-/
theorem onRecordChange_aggregated_notification (v : View)
    (g : DirectivePropertyGroupMemento) (records : List Rec)
    (eis : List (Option ElementInjector)) (dir : Directive)
    (heis : v.elementInjectors = some eis)
    (hdir : g.directive eis = some dir)
    (honc : dir.cls.implementsOnChange = true)
    (hrecs : ∀ r ∈ records, ∃ m, r.memento = .directiveProp m ∧
      m.invoke r eis ≠ none)
    (hkeys : (records.map (fun r => r.memento.setterNameField)).Nodup) :
    v.onRecordChange (.directiveGroup g) records =
      some (records.map Rec.dispatchEvent ++
        [.notifyOnChange g.elementInjectorIndex g.directiveIndex
          (View.collectChanges records)]) ∧
    (records.map Rec.dispatchEvent ++
      [DispatchEvent.notifyOnChange g.elementInjectorIndex g.directiveIndex
        (View.collectChanges records)]).countP
      DispatchEvent.isNotifyOnChange = 1 ∧
    (View.collectChanges records).length = records.length ∧
    (∀ r ∈ records, ∃ m, r.memento = .directiveProp m ∧
      amGet (View.collectChanges records) (some m.setterName) =
        some { currentValue := r.currentValue,
               previousValue := r.previousValue }) := by
  refine ⟨?_, ?_, ?_, ?_⟩
  · have happlied := invokeMementoForRecords_all_directive v eis heis records hrecs
    simp [View.onRecordChange, happlied, View.notifyDirectiveAboutChanges, heis,
      hdir, honc]
  · rw [List.countP_append]
    have hz : (records.map Rec.dispatchEvent).countP
        DispatchEvent.isNotifyOnChange = 0 := by
      rw [List.countP_eq_zero]
      intro ev hev
      obtain ⟨r, hr, hfr⟩ := List.mem_map.mp hev
      obtain ⟨m, hm, _⟩ := hrecs r hr
      subst hfr
      simp [Rec.dispatchEvent, hm, DispatchEvent.isNotifyOnChange]
    rw [hz]
    simp [DispatchEvent.isNotifyOnChange]
  · rw [collectChanges_foldl]
    rw [collectChanges_foldl_length records hkeys [] (by intro r hr; rfl)]
    simp
  · intro r hr
    obtain ⟨m, hm, hres⟩ := hrecs r hr
    refine ⟨m, hm, ?_⟩
    have := collectChanges_foldl_lookup records hkeys [] r hr
    rw [collectChanges_foldl]
    rw [hm] at this
    simpa [Memento.setterNameField, hm] using this

def demoDirectiveClass : DirectiveClass := { name := "MyDir", implementsOnChange := true }

def demoDirective : Directive := { cls := demoDirectiveClass }

def demoElementInjectors : List (Option ElementInjector) :=
  [some { proto := .mk none 0 [demoDirectiveClass] false,
          directives := [demoDirective] }]

def demoDispatchView : View :=
  View.mk demoProtoView [] (.mk ProtoRecordRange.new none [])
    (some demoElementInjectors) none none none none none none
    (some (.plain .null)) none

def demoRecords : List Rec :=
  [{ memento := .directiveProp
       { elementInjectorIndex := 0, directiveIndex := 0, setterName := "a" },
     currentValue := .str "x", previousValue := .null },
   { memento := .directiveProp
       { elementInjectorIndex := 0, directiveIndex := 0, setterName := "b" },
     currentValue := .int 1, previousValue := .null }]

/-- Witness for C1: a directive with two simultaneously changed bound
properties receives one aggregated notification carrying both updates. -/
theorem onRecordChange_aggregated_notification_witness :
    demoDispatchView.elementInjectors = some demoElementInjectors ∧
    DirectivePropertyGroupMemento.directive
      { elementInjectorIndex := 0, directiveIndex := 0 } demoElementInjectors =
      some demoDirective ∧
    demoDirective.cls.implementsOnChange = true ∧
    demoDispatchView.onRecordChange
        (.directiveGroup { elementInjectorIndex := 0, directiveIndex := 0 })
        demoRecords =
      some (demoRecords.map Rec.dispatchEvent ++
        [DispatchEvent.notifyOnChange 0 0 (View.collectChanges demoRecords)]) ∧
    (View.collectChanges demoRecords).length = 2 ∧
    amGet (View.collectChanges demoRecords) (some "a") =
      some { currentValue := .str "x", previousValue := .null } ∧
    amGet (View.collectChanges demoRecords) (some "b") =
      some { currentValue := .int 1, previousValue := .null } := by
  have hrecs : ∀ r ∈ demoRecords, ∃ m, r.memento = .directiveProp m ∧
      m.invoke r demoElementInjectors ≠ none := by
    intro r hr
    rcases List.mem_cons.mp hr with h | h
    · subst h
      exact ⟨{ elementInjectorIndex := 0, directiveIndex := 0, setterName := "a" },
        rfl, by decide⟩
    · rcases List.mem_cons.mp h with h2 | h2
      · subst h2
        exact ⟨{ elementInjectorIndex := 0, directiveIndex := 0, setterName := "b" },
          rfl, by decide⟩
      · simp at h2
  have h := onRecordChange_aggregated_notification demoDispatchView
    { elementInjectorIndex := 0, directiveIndex := 0 } demoRecords
    demoElementInjectors demoDirective rfl rfl rfl hrecs (by decide)
  exact ⟨rfl, rfl, rfl, h.1, by decide, by decide, by decide⟩

/-! ## C2 — binder-element resolution and bindElements[0] -/

/-- The bound-element list `instantiate` accumulates: one entry per binder
with element-property bindings, holding the element the source's offset
arithmetic resolves for that binder index. -/
def expectedBindElements (rootElementClone : DomNode) (rootBindingOffset : Nat)
    (elementsWithBindings : List DomNode) : Nat → List ElementBinder → List DomNode
  | _, [] => []
  | i, b :: rest =>
      (if b.hasElementPropertyBindings then
        (resolveBinderElement rootElementClone rootBindingOffset elementsWithBindings
          i).toList
       else []) ++
        expectedBindElements rootElementClone rootBindingOffset elementsWithBindings
          (i + 1) rest

theorem finishBinder_ewpb {b : ElementBinder} {element : DomNode}
    {elementInjector : Option ElementInjector} {lightDom : Option LightDom}
    {st st' : InstState} (h : finishBinder b element elementInjector lightDom st = some st') :
    st'.elementsWithPropertyBindings = st.elementsWithPropertyBindings := by
  unfold finishBinder at h
  repeat' split at h
  all_goals try (obtain rfl := Option.some.inj h)
  all_goals first
    | rfl
    | simp at h

theorem processBinder_ewpb {host : Option ElementInjector} {rc : DomNode} {off : Nat}
    {ew : List DomNode} {i : Nat} {b : ElementBinder} {st st' : InstState}
    (h : processBinder host rc off ew i b st = some st') :
    st'.elementsWithPropertyBindings =
      st.elementsWithPropertyBindings ++
        (if b.hasElementPropertyBindings then
          (resolveBinderElement rc off ew i).toList else []) := by
  cases b with
  | mk pei cd td npv tni hepb evs =>
      rw [processBinder.eq_def] at h
      cases hres : resolveBinderElement rc off ew i with
      | none => rw [hres] at h; simp at h
      | some element =>
          rw [hres] at h
          dsimp only [ElementBinder.protoElementInjector_mk,
            ElementBinder.componentDirective_mk, ElementBinder.nestedProtoView_mk,
            ElementBinder.textNodeIndices_mk, ElementBinder.hasElementPropertyBindings_mk,
            ElementBinder.events_mk] at h
          cases tni with
          | none =>
              dsimp only at h
              cases cd with
              | none =>
                  rw [finishBinder_ewpb h]
                  cases hepb <;> simp
              | some componentDirective =>
                  cases npv with
                  | none => simp at h
                  | some nestedProtoView =>
                      dsimp only at h
                      cases hinst : nestedProtoView.instantiate
                          (match pei with
                           | none => (none, st.rootElementInjectors)
                           | some protoElementInjector =>
                               match protoElementInjector.parent with
                               | some parentProto =>
                                   (some (protoElementInjector.instantiate
                                     ((st.elementInjectors.get? parentProto.index).join)
                                     none), st.rootElementInjectors)
                               | none =>
                                   (some (protoElementInjector.instantiate none host),
                                    st.rootElementInjectors ++
                                      [protoElementInjector.instantiate none host])).1 with
                      | none => rw [hinst] at h; simp at h
                      | some childView =>
                          rw [hinst] at h
                          dsimp only at h
                          rw [finishBinder_ewpb h]
                          cases hepb <;> simp
          | some textNodeIndices =>
              dsimp only at h
              cases hrt : resolveTextNodes element.childList textNodeIndices with
              | none => rw [hrt] at h; simp at h
              | some newTextNodes =>
                  rw [hrt] at h
                  dsimp only at h
                  cases cd with
                  | none =>
                      rw [finishBinder_ewpb h]
                      cases hepb <;> simp
                  | some componentDirective =>
                      cases npv with
                      | none => simp at h
                      | some nestedProtoView =>
                          dsimp only at h
                          cases hinst : nestedProtoView.instantiate
                              (match pei with
                               | none => (none, st.rootElementInjectors)
                               | some protoElementInjector =>
                                   match protoElementInjector.parent with
                                   | some parentProto =>
                                       (some (protoElementInjector.instantiate
                                         ((st.elementInjectors.get? parentProto.index).join)
                                         none), st.rootElementInjectors)
                                   | none =>
                                       (some (protoElementInjector.instantiate none host),
                                        st.rootElementInjectors ++
                                          [protoElementInjector.instantiate none host])).1 with
                          | none => rw [hinst] at h; simp at h
                          | some childView =>
                              rw [hinst] at h
                              dsimp only at h
                              rw [finishBinder_ewpb h]
                              cases hepb <;> simp

theorem instantiateLoop_ewpb {host : Option ElementInjector} {rc : DomNode} {off : Nat}
    {ew : List DomNode} (binders : List ElementBinder) :
    ∀ (i : Nat) (st st' : InstState),
      instantiateLoop host rc off ew i binders st = some st' →
      st'.elementsWithPropertyBindings =
        st.elementsWithPropertyBindings ++ expectedBindElements rc off ew i binders := by
  induction binders with
  | nil =>
      intro i st st' h
      rw [instantiateLoop.eq_def] at h
      dsimp only at h
      obtain rfl := Option.some.inj h
      simp [expectedBindElements]
  | cons b rest ih =>
      intro i st st' h
      rw [instantiateLoop.eq_def] at h
      dsimp only at h
      cases hpb : processBinder host rc off ew i b st with
      | none => rw [hpb] at h; simp at h
      | some st1 =>
          rw [hpb] at h
          dsimp only at h
          rw [ih (i + 1) st1 st' h, processBinder_ewpb hpb, expectedBindElements]
          simp

/--
C2: during `ProtoView.instantiate`, the concrete DOM element of
element-binder index `i` is the root clone itself when `i = 0` and
`rootBindingOffset = 1`, and the `(i - rootBindingOffset)`-th element of
the bound-descendant query otherwise (`resolveBinderElement`, threaded here
through the dense bound-element list `bindElements`, which collects exactly
the so-resolved element of every binder with element-property bindings);
consequently, for `rootBindingOffset = 1` with a root binder carrying an
element-property binding, `bindElements[0]` is the cloned root node.
-/
theorem instantiate_bindElements (pv : ProtoView) (host : Option ElementInjector)
    (view : View) (templateElement : DomNode)
    (hel : pv.element = some templateElement)
    (hinst : pv.instantiate host = some view) :
    view.bindElements =
      some (expectedBindElements
        (rootElementCloneFor pv.instantiateInPlace templateElement)
        pv.rootBindingOffset
        (elementsWithBindingsFor pv.isTemplateElement
          (rootElementCloneFor pv.instantiateInPlace templateElement))
        0 pv.elementBinders) ∧
    (pv.rootBindingOffset = 1 → ∀ b rest, pv.elementBinders = b :: rest →
      b.hasElementPropertyBindings = true →
      ∃ bes, view.bindElements = some bes ∧
        bes.get? 0 =
          some (rootElementCloneFor pv.instantiateInPlace templateElement)) := by
  have hmain : view.bindElements =
      some (expectedBindElements
        (rootElementCloneFor pv.instantiateInPlace templateElement)
        pv.rootBindingOffset
        (elementsWithBindingsFor pv.isTemplateElement
          (rootElementCloneFor pv.instantiateInPlace templateElement))
        0 pv.elementBinders) := by
    rw [ProtoView.instantiate.eq_def] at hinst
    rw [hel] at hinst
    dsimp only at hinst
    cases hloop : instantiateLoop host
        (rootElementCloneFor pv.instantiateInPlace templateElement)
        pv.rootBindingOffset
        (elementsWithBindingsFor pv.isTemplateElement
          (rootElementCloneFor pv.instantiateInPlace templateElement))
        0 pv.elementBinders InstState.initial with
    | none => rw [hloop] at hinst; simp at hinst
    | some st =>
        rw [hloop] at hinst
        dsimp only at hinst
        obtain rfl := Option.some.inj hinst
        have hs := instantiateLoop_ewpb pv.elementBinders 0 InstState.initial st hloop
        simp only [InstState.initial] at hs
        simp [View.new, View.init, hs]
  refine ⟨hmain, ?_⟩
  intro hoff b rest hbinders hepb
  refine ⟨_, hmain, ?_⟩
  rw [hbinders, expectedBindElements, hoff, hepb]
  simp [resolveBinderElement]

def rootBinderDemoElement : DomNode := .element "div" [NG_BINDING_CLASS] false []

def rootBinderDemoProtoView : ProtoView :=
  ProtoView.mk (some rootBinderDemoElement)
    [ElementBinder.mk none none none none none true none]
    ProtoRecordRange.new [] [] 0 1 false 1 false

def rootBinderDemoView : View :=
  View.mk rootBinderDemoProtoView [rootBinderDemoElement]
    (.mk ProtoRecordRange.new none []) (some [none]) (some []) (some [])
    (some [rootBinderDemoElement]) (some []) (some []) (some [none]) none none

/-- Witness for C2: a root-bound ProtoView (`rootBindingOffset = 1`) whose
root binder has an element-property binding instantiates with
`bindElements[0]` equal to the cloned root element. -/
theorem instantiate_bindElements_witness :
    rootBinderDemoProtoView.element = some rootBinderDemoElement ∧
    rootBinderDemoProtoView.instantiate none = some rootBinderDemoView ∧
    rootBinderDemoView.bindElements = some [rootBinderDemoElement] ∧
    ∃ bes, rootBinderDemoView.bindElements = some bes ∧
      bes.get? 0 =
        some (rootElementCloneFor rootBinderDemoProtoView.instantiateInPlace
          rootBinderDemoElement) := by
  have hinst : rootBinderDemoProtoView.instantiate none = some rootBinderDemoView := by
    simp [rootBinderDemoProtoView, rootBinderDemoElement, rootBinderDemoView,
      ProtoView.instantiate, instantiateLoop, processBinder, finishBinder,
      InstState.initial, View.new, View.init, rootElementCloneFor,
      elementsWithBindingsFor, viewNodesFor, resolveBinderElement, listGetInt,
      DomNode.clone, DomNode.getElementsByClassNameBound, DomNode.childList,
      collectBoundList, ProtoRecordRange.instantiate]
  refine ⟨rfl, hinst, rfl, ?_⟩
  exact (instantiate_bindElements rootBinderDemoProtoView none rootBinderDemoView
    rootBinderDemoElement rfl hinst).2 rfl
    (ElementBinder.mk none none none none none true none) [] rfl rfl
